import Mathlib

/-!
Verification model of the Agent-Orchestrator repository.

The embedding covers `src/agents/tools/code_change.py` (the
`CodeChangeHandler` class: backups, unified-diff patches, apply and
revert of change sets), the orchestration layer of
`src/agents/agent.py` (`AgentController.process_repository_prompt`,
`AgentSelector.process`, `GPTAgent.process`, `RepositoryAnalysisAgent`,
`CodeReaderAgent`) and the `/apply_changes` route logic of
`src/main.py`.

Paths are modelled as lists of segments.  `pathlib` values are kept
lexically (they may contain ".." segments); operating-system calls act
on the normalized path, which is how POSIX resolves ".." in the absence
of symlinks.  The filesystem is a finite map from normalized absolute
paths to file contents together with a list of existing directories.
-/

namespace AgentOrch

/-- A lexical `pathlib` path: absolute, possibly containing ".." segments.
`PurePosixPath` drops "." segments and empty segments on construction,
so those never occur, but ".." is kept. -/
abbrev PyPath := List String

/-- A normalized absolute path as the operating system resolves it. -/
abbrev OsPath := List String

/-- Split a character list at every "/" (the splitting step of `str.split`,
kept structurally recursive so that concrete paths evaluate inside the
kernel). -/
def splitSlash : List Char → List Char → List String
  | acc, [] => [String.mk acc.reverse]
  | acc, c :: rest =>
    if c = '/' then String.mk acc.reverse :: splitSlash [] rest
    else splitSlash (c :: acc) rest

/-- Segment parse of a path string, as `pathlib` does on construction:
split on "/", drop empty segments and "." segments.  (Models the rhs of
`repository_path / file_path_str` for a relative rhs.) -/
def parseRel (s : String) : List String :=
  (splitSlash [] s.data).filter (fun t => !(t == "" || t == "."))

/-- Whether the path string is absolute (starts with "/"). -/
def startsWithSlash (s : String) : Bool :=
  match s.data with
  | c :: _ => c = '/'
  | [] => false

/-- `pathlib`'s `/` operator: an absolute right operand replaces the left
operand entirely; a relative one is appended. -/
def pyJoin (base : PyPath) (s : String) : PyPath :=
  if startsWithSlash s then parseRel s else base ++ parseRel s

/-- One step of POSIX path resolution: ".." pops the last segment
(staying at the filesystem root when already there). -/
def normStep (acc : OsPath) (seg : String) : OsPath :=
  if seg = ".." then acc.dropLast else acc ++ [seg]

/-- Resolve ".." segments the way the operating system does when a path
is actually opened (no symlinks assumed). -/
def normalizePath (p : PyPath) : OsPath :=
  p.foldl normStep []

/-- `pathlib`'s purely lexical `Path.relative_to`: succeeds exactly when
`base` is a lexical segment prefix, without resolving "..". -/
def relativeTo (p : PyPath) (base : PyPath) : Option PyPath :=
  if base.isPrefixOf p then some (p.drop base.length) else none

/-- Join strings with a separator (`sep.join(parts)`), structurally
recursive for kernel evaluation. -/
def joinSep (sep : String) : List String → String
  | [] => ""
  | x :: rest => rest.foldl (fun acc y => acc ++ sep ++ y) x

/-- `str()` of an absolute `pathlib` path. -/
def osPathStr (p : OsPath) : String :=
  "/" ++ joinSep "/" p

/-- `str()` of a relative `pathlib` path. -/
def relPathStr (p : PyPath) : String :=
  joinSep "/" p

/-- Index of the last "." in a name, if any (`str.rfind`). -/
def lastDotIdx (l : List Char) : Option Nat :=
  (l.enum.filter (fun c => c.2 = '.')).getLast?.map (·.1)

/-- `pathlib`'s `Path.suffix` of a final path segment: the part from the
last dot on, but only when that dot is neither the first nor the last
character of the name. -/
def pySuffix (name : String) : String :=
  match lastDotIdx name.data with
  | none => ""
  | some i => if 0 < i ∧ i < name.data.length - 1 then String.mk (name.data.drop i) else ""

/-- Python's `in` operator on strings: substring containment. -/
def pyInStr (pat s : String) : Bool :=
  (List.range (s.data.length + 1)).any (fun i => pat.data.isPrefixOf (s.data.drop i))

/-- The Python exceptions the modelled code can raise, with the message
that `str(e)` renders. -/
inductive PyErr where
  | fileNotFound (msg : String)
  | isADirectory (msg : String)
  | notADirectory (msg : String)
  | fileExists (msg : String)
  | valueError (msg : String)
  | attributeError (msg : String)
deriving DecidableEq

/-- `str(e)` for a caught exception. -/
def pyErrStr : PyErr → String
  | .fileNotFound m => m
  | .isADirectory m => m
  | .notADirectory m => m
  | .fileExists m => m
  | .valueError m => m
  | .attributeError m => m

/-- Filesystem state: regular files (normalized path, content) and the
set of existing directories.  `[]` is the filesystem root. -/
structure FS where
  files : List (OsPath × String)
  dirs : List OsPath
deriving DecidableEq

/-- Content of the regular file at `p`, if one exists. -/
def FS.fileContent (fs : FS) (p : OsPath) : Option String :=
  (fs.files.find? (fun e => e.1 == p)).map (·.2)

/-- Whether a regular file exists at `p`. -/
def FS.isFile (fs : FS) (p : OsPath) : Bool :=
  (fs.fileContent p).isSome

/-- Whether a directory exists at `p`; the filesystem root always does. -/
def FS.isDir (fs : FS) (p : OsPath) : Bool :=
  fs.dirs.contains p || p == []

/-- `pathlib.Path.exists()` (true for files and directories alike). -/
def FS.pathExists (fs : FS) (p : OsPath) : Bool :=
  fs.isFile p || fs.isDir p

/-- Replace or create the file entry at `p` with content `c`. -/
def FS.overwrite (fs : FS) (p : OsPath) (c : String) : FS :=
  { fs with files := (p, c) :: fs.files.filter (fun e => !(e.1 == p)) }

/-- `open(p, "w")` followed by a full write: fails on a directory, or
when creating a new file whose parent directory does not exist. -/
def FS.writeFile (fs : FS) (p : OsPath) (c : String) : Except PyErr FS :=
  if fs.isDir p then
    .error (.isADirectory ("Is a directory: " ++ osPathStr p))
  else if fs.isFile p || fs.isDir p.dropLast then
    .ok (fs.overwrite p c)
  else
    .error (.fileNotFound ("No such file or directory: " ++ osPathStr p))

/-- `open(p, "r")` followed by a full read. -/
def FS.readFile (fs : FS) (p : OsPath) : Except PyErr String :=
  if fs.isDir p then
    .error (.isADirectory ("Is a directory: " ++ osPathStr p))
  else
    match fs.fileContent p with
    | some c => .ok c
    | none => .error (.fileNotFound ("No such file or directory: " ++ osPathStr p))

/-- Create every directory in `chain` in order, skipping ones that exist
and failing on a path that is a regular file; on failure the directories
already created are kept (partial effect, as with `mkdir -p`). -/
def FS.mkChain (fs : FS) (chain : List OsPath) : FS × Option PyErr :=
  match chain with
  | [] => (fs, none)
  | q :: rest =>
    if fs.isDir q then
      fs.mkChain rest
    else if fs.isFile q then
      (fs, some (.fileExists ("File exists: " ++ osPathStr q)))
    else
      FS.mkChain { fs with dirs := q :: fs.dirs } rest

/-- The nonempty prefixes of a path, shortest first. -/
def pathChain (t : OsPath) : List OsPath :=
  (List.range t.length).map (fun k => t.take (k + 1))

/-- `Path.mkdir(parents=True, exist_ok=True)` on target `t`. -/
def FS.mkdirParents (fs : FS) (t : OsPath) : FS × Option PyErr :=
  fs.mkChain (pathChain t)

/-- `Path.mkdir(exist_ok=True)` (no `parents`): the parent must already
exist; an existing directory at the target is fine, an existing regular
file is not. -/
def FS.mkdirExistOk (fs : FS) (t : OsPath) : Except PyErr FS :=
  if fs.isDir t then
    .ok fs
  else if fs.isFile t then
    .error (.fileExists ("File exists: " ++ osPathStr t))
  else if fs.isDir t.dropLast then
    .ok { fs with dirs := t :: fs.dirs }
  else
    .error (.fileNotFound ("No such file or directory: " ++ osPathStr t))

/-!
Model of `difflib.unified_diff` as called by
`CodeChangeHandler.generate_patch` (no junk heuristics apply: the inputs
are far below the autojunk threshold).  `SequenceMatcher`'s longest
matching block is: the maximal common run, earliest in `a`, then
earliest in `b`.
-/

/-- Length of the common run of `a` and `b` starting at `i`, `j` and
staying below `hiA`, `hiB`.  Exact whenever `fuel ≥ hiA - i`. -/
def runLen (a b : List String) : Nat → Nat → Nat → Nat → Nat → Nat
  | 0, _, _, _, _ => 0
  | fuel + 1, i, j, hiA, hiB =>
    if i < hiA ∧ j < hiB ∧ a.getD i "" = b.getD j "" then
      runLen a b fuel (i + 1) (j + 1) hiA hiB + 1
    else 0

/-- `SequenceMatcher.find_longest_match` on the slice
`a[alo:ahi]`, `b[blo:bhi]`: maximal matching block, ties broken towards
the earliest start in `a`, then in `b`. -/
def findLongestMatch (a b : List String) (alo ahi blo bhi : Nat) : Nat × Nat × Nat :=
  let cands := (List.range' alo (ahi - alo)).flatMap (fun i =>
    (List.range' blo (bhi - blo)).map (fun j => (i, j, runLen a b (ahi - i) i j ahi bhi)))
  cands.foldl (fun best c => if c.2.2 > best.2.2 then c else best) (alo, blo, 0)

/-- Recursive block collection of `SequenceMatcher.get_matching_blocks`
(before merging).  `fuel ≥ ahi + bhi + 1` suffices. -/
def matchingBlocksAux (a b : List String) : Nat → Nat → Nat → Nat → Nat → List (Nat × Nat × Nat)
  | 0, _, _, _, _ => []
  | fuel + 1, alo, ahi, blo, bhi =>
    let m := findLongestMatch a b alo ahi blo bhi
    if m.2.2 > 0 then
      matchingBlocksAux a b fuel alo m.1 blo m.2.1
        ++ m :: matchingBlocksAux a b fuel (m.1 + m.2.2) ahi (m.2.1 + m.2.2) bhi
    else []

/-- The adjacent-block merge pass of `get_matching_blocks`. -/
def mergeLoop : (Nat × Nat × Nat) → List (Nat × Nat × Nat) → List (Nat × Nat × Nat)
  | cur, [] => if cur.2.2 ≠ 0 then [cur] else []
  | cur, x :: rest =>
    if cur.1 + cur.2.2 = x.1 ∧ cur.2.1 + cur.2.2 = x.2.1 then
      mergeLoop (cur.1, cur.2.1, cur.2.2 + x.2.2) rest
    else
      (if cur.2.2 ≠ 0 then [cur] else []) ++ mergeLoop x rest

/-- `SequenceMatcher.get_matching_blocks`, including the `(la, lb, 0)`
sentinel. -/
def getMatchingBlocks (a b : List String) : List (Nat × Nat × Nat) :=
  mergeLoop (0, 0, 0)
      (matchingBlocksAux a b (a.length + b.length + 1) 0 a.length 0 b.length)
    ++ [(a.length, b.length, 0)]

/-- The tag of a `SequenceMatcher` opcode. -/
inductive Tag where
  | replace
  | delete
  | insert
  | equal
deriving DecidableEq

/-- One `SequenceMatcher` opcode `(tag, i1, i2, j1, j2)`. -/
structure Opcode where
  tag : Tag
  i1 : Nat
  i2 : Nat
  j1 : Nat
  j2 : Nat
deriving DecidableEq

/-- The loop body of `SequenceMatcher.get_opcodes`. -/
def opcodesLoop : Nat → Nat → List (Nat × Nat × Nat) → List Opcode
  | _, _, [] => []
  | i, j, (ai, bj, size) :: rest =>
    (if i < ai ∧ j < bj then [⟨.replace, i, ai, j, bj⟩]
     else if i < ai then [⟨.delete, i, ai, j, bj⟩]
     else if j < bj then [⟨.insert, i, ai, j, bj⟩]
     else [])
      ++ (if size ≠ 0 then [⟨.equal, ai, ai + size, bj, bj + size⟩] else [])
      ++ opcodesLoop (ai + size) (bj + size) rest

/-- `SequenceMatcher.get_opcodes`. -/
def getOpcodes (a b : List String) : List Opcode :=
  opcodesLoop 0 0 (getMatchingBlocks a b)

/-- `get_grouped_opcodes`: trim a leading `equal` opcode to `n` lines of
context. -/
def adjustFirst (n : Nat) : List Opcode → List Opcode
  | [] => []
  | c :: rest =>
    if c.tag = .equal then
      ⟨c.tag, max c.i1 (c.i2 - n), c.i2, max c.j1 (c.j2 - n), c.j2⟩ :: rest
    else c :: rest

/-- `get_grouped_opcodes`: trim a trailing `equal` opcode to `n` lines of
context. -/
def adjustLast (n : Nat) (codes : List Opcode) : List Opcode :=
  match codes.getLast? with
  | none => codes
  | some c =>
    if c.tag = .equal then
      codes.dropLast ++ [⟨c.tag, c.i1, min c.i2 (c.i1 + n), c.j1, min c.j2 (c.j1 + n)⟩]
    else codes

/-- The grouping loop of `get_grouped_opcodes`: split at `equal` runs
longer than `2 * n`, dropping a final group that is a single `equal`. -/
def groupLoop (n : Nat) : List Opcode → List Opcode → List (List Opcode)
  | group, [] =>
    match group with
    | [] => []
    | [g] => if g.tag = Tag.equal then [] else [[g]]
    | g1 :: g2 :: gs => [g1 :: g2 :: gs]
  | group, c :: rest =>
    if c.tag = Tag.equal ∧ c.i2 - c.i1 > n * 2 then
      (group ++ [⟨c.tag, c.i1, min c.i2 (c.i1 + n), c.j1, min c.j2 (c.j1 + n)⟩])
        :: groupLoop n [⟨c.tag, max c.i1 (c.i2 - n), c.i2, max c.j1 (c.j2 - n), c.j2⟩] rest
    else groupLoop n (group ++ [c]) rest

/-- `difflib._group_opcodes` with context size `n` (the `unified_diff`
default is 3). -/
def groupOpcodes (n : Nat) (a b : List String) : List (List Opcode) :=
  let codes0 := getOpcodes a b
  let codes1 := if codes0 = [] then [⟨Tag.equal, 0, 1, 0, 1⟩] else codes0
  groupLoop n [] (adjustLast n (adjustFirst n codes1))

/-- `difflib._format_range_unified`. -/
def formatRangeUnified (start stop : Nat) : String :=
  let len := stop - start
  if len = 1 then toString (start + 1)
  else if len = 0 then toString start ++ ",0"
  else toString (start + 1) ++ "," ++ toString len

/-- Python list slice `a[i1:i2]`. -/
def sliceGet (a : List String) (i1 i2 : Nat) : List String :=
  (a.drop i1).take (i2 - i1)

/-- The tagged lines `unified_diff` emits for one opcode group. -/
def groupLines (a b : List String) (g : List Opcode) : List String :=
  g.flatMap (fun c =>
    match c.tag with
    | .equal => (sliceGet a c.i1 c.i2).map (fun l => " " ++ l)
    | .replace =>
      (sliceGet a c.i1 c.i2).map (fun l => "-" ++ l)
        ++ (sliceGet b c.j1 c.j2).map (fun l => "+" ++ l)
    | .delete => (sliceGet a c.i1 c.i2).map (fun l => "-" ++ l)
    | .insert => (sliceGet b c.j1 c.j2).map (fun l => "+" ++ l))

/-- The `@@ -r +r @@` hunk header of one group (`lineterm` is the empty
string in `generate_patch`, so no trailing newline). -/
def groupHeader (g : List Opcode) : String :=
  match g.head?, g.getLast? with
  | some f, some l =>
    "@@ -" ++ formatRangeUnified f.i1 l.i2 ++ " +" ++ formatRangeUnified f.j1 l.j2 ++ " @@"
  | _, _ => ""

/-- `difflib.unified_diff(a, b, fromfile, tofile, lineterm="")` as a list
of emitted lines.  The two file headers appear once, before the first
group; an empty diff emits nothing. -/
def unifiedDiffLines (a b : List String) (fromfile tofile : String) : List String :=
  match groupOpcodes 3 a b with
  | [] => []
  | g :: gs =>
    ("--- " ++ fromfile) :: ("+++ " ++ tofile)
      :: (g :: gs).flatMap (fun grp => groupHeader grp :: groupLines a b grp)

/-- The line-break characters of `str.splitlines`. -/
def lineBreakChars : List Char :=
  ['\n', '\r', '\x0b', '\x0c', '\x1c', '\x1d', '\x1e', '\x85', '\u2028', '\u2029']

/-- `str.splitlines(keepends=True)` on an explicit character list, with
an accumulator for the current (reversed) line.  Fuelled so concrete
inputs evaluate inside the kernel; `fuel > length` is exact. -/
def pySplitlines : Nat → List Char → List Char → List String
  | 0, _, _ => []
  | _ + 1, acc, [] => if acc = [] then [] else [String.mk acc.reverse]
  | fuel + 1, acc, c :: rest =>
    if c = '\r' then
      match rest with
      | '\n' :: rest2 => String.mk (acc.reverse ++ ['\r', '\n']) :: pySplitlines fuel [] rest2
      | other => String.mk (acc.reverse ++ ['\r']) :: pySplitlines fuel [] other
    else if c ∈ lineBreakChars then
      String.mk (acc.reverse ++ [c]) :: pySplitlines fuel [] rest
    else pySplitlines fuel (c :: acc) rest

/-- `content.splitlines(keepends=True)`. -/
def pythonSplitlinesKeepends (s : String) : List String :=
  pySplitlines (s.data.length + 1) [] s.data

/-- `CodeChangeHandler.generate_patch`: the unified diff between the old
and new content, joined with `"".join` (so the emitted lines, which have
no line terminator of their own under `lineterm=""`, are concatenated
directly). -/
def generatePatch (original modified filePathStr : String) : String :=
  String.join (unifiedDiffLines (pythonSplitlinesKeepends original)
    (pythonSplitlinesKeepends modified) filePathStr filePathStr)

/-!
Model of `CodeChangeHandler` (`src/agents/tools/code_change.py`).  The
handler instance carries `repository_path` (given here already
normalized) and `backup_dir = repository_path / ".code_backup"`.
-/

/-- `self.backup_dir` of a handler rooted at `repo`. -/
def backupDirOf (repo : OsPath) : OsPath :=
  repo ++ [".code_backup"]

/-- `CodeChangeHandler.__init__` / `_ensure_backup_dir`: the constructor
immediately runs `self.backup_dir.mkdir(exist_ok=True)`. -/
def handlerInit (repo : OsPath) (fs : FS) : Except PyErr FS :=
  fs.mkdirExistOk (backupDirOf repo)

/-- `CodeChangeHandler.backup_file`.  Returns the filesystem afterwards
and either the created backup path, `none` when the source file does not
exist, or the exception raised.  Line 34 of `code_change.py` evaluates
`datetime.now()` under `import datetime` — an attribute lookup of `now`
on the module object — so the backup-already-exists branch raises
`AttributeError` instead of producing a timestamped backup name. -/
def backupFile (repo : OsPath) (fs : FS) (filePathPy : PyPath) :
    FS × Except PyErr (Option PyPath) :=
  if !(fs.pathExists (normalizePath filePathPy)) then (fs, .ok none)
  else
    match relativeTo filePathPy repo with
    | none =>
      (fs, .error (.valueError (osPathStr filePathPy ++ " is not in the subpath of "
        ++ osPathStr repo)))
    | some rel =>
      match fs.mkdirParents (normalizePath (backupDirOf repo ++ rel).dropLast) with
      | (fs1, some e) => (fs1, .error e)
      | (fs1, none) =>
        if fs1.pathExists (normalizePath (backupDirOf repo ++ rel)) then
          (fs1, .error (.attributeError "module datetime has no attribute now"))
        else
          match fs1.readFile (normalizePath filePathPy) with
          | .error e => (fs1, .error e)
          | .ok content =>
            match fs1.writeFile (normalizePath (backupDirOf repo ++ rel)) content with
            | .error e => (fs1, .error e)
            | .ok fs2 => (fs2, .ok (some (backupDirOf repo ++ rel)))

/-- One iteration of the `apply_changes` loop body (lines 74-100):
resolve the target, create parent directories, back up and diff an
existing file (or diff against empty content for a new one), then write.
Returns the filesystem afterwards, the patch stored into
`results["patches"]` — inserted before the final write, so it can be
present even for an iteration that then errors — and the caught
exception, if any. -/
def applyStep (repo : OsPath) (s newContent : String) (fs : FS) :
    FS × Option String × Option PyErr :=
  match fs.mkdirParents (normalizePath (pyJoin repo s).dropLast) with
  | (fs1, some e) => (fs1, none, some e)
  | (fs1, none) =>
    if fs1.pathExists (normalizePath (pyJoin repo s)) then
      match fs1.readFile (normalizePath (pyJoin repo s)) with
      | .error e => (fs1, none, some e)
      | .ok original =>
        match backupFile repo fs1 (pyJoin repo s) with
        | (fs2, .error e) => (fs2, none, some e)
        | (fs2, .ok _) =>
          match fs2.writeFile (normalizePath (pyJoin repo s)) newContent with
          | .error e => (fs2, some (generatePatch original newContent s), some e)
          | .ok fs3 => (fs3, some (generatePatch original newContent s), none)
    else
      match fs1.writeFile (normalizePath (pyJoin repo s)) newContent with
      | .error e => (fs1, some (generatePatch "" newContent s), some e)
      | .ok fs2 => (fs2, some (generatePatch "" newContent s), none)

/-- Assignment `results["patches"][k] = v` on an insertion-ordered dict. -/
def dictInsert (d : List (String × String)) (k v : String) : List (String × String) :=
  if d.any (fun e => e.1 == k) then d.map (fun e => if e.1 == k then (k, v) else e)
  else d ++ [(k, v)]

/-- The `apply_changes` loop over the change set, threading the mutable
`results` lists exactly as the Python loop does. -/
def applyLoop (repo : OsPath) :
    List (String × String) → FS → List String → List String → List (String × String) →
    List String × List String × List (String × String) × FS
  | [], fs, modified, errors, patches => (modified, errors, patches, fs)
  | (s, c) :: rest, fs, modified, errors, patches =>
    match applyStep repo s c fs with
    | (fs1, patchOpt, errOpt) =>
      let patches1 := match patchOpt with
        | some p => dictInsert patches s p
        | none => patches
      match errOpt with
      | none => applyLoop repo rest fs1 (modified ++ [s]) errors patches1
      | some e =>
        applyLoop repo rest fs1 modified
          (errors ++ ["Error modifying " ++ s ++ ": " ++ pyErrStr e]) patches1

/-- The dict returned by `apply_changes`. -/
structure ApplyResult where
  status : String
  modified : List String
  errors : List String
  patches : List (String × String)
deriving DecidableEq

/-- The shared status computation of `apply_changes` (lines 102-103) and
`revert_changes` (lines 142-143): start from `"success"`; when errors
exist, downgrade to `"partial_success"` if anything succeeded, else
`"error"`. -/
def aggStatus (succeeded errors : List String) : String :=
  if errors = [] then "success"
  else if succeeded ≠ [] then "partial_success"
  else "error"

/-- `CodeChangeHandler.apply_changes`. -/
def applyChanges (repo : OsPath) (changes : List (String × String)) (fs : FS) :
    ApplyResult × FS :=
  match applyLoop repo changes fs [] [] [] with
  | (modified, errors, patches, fs1) =>
    (⟨aggStatus modified errors, modified, errors, patches⟩, fs1)

/-- One iteration of the `revert_changes` loop body (lines 123-140):
locate the backup at the same relative path under `.code_backup`, raise
`FileNotFoundError` when it is absent, otherwise copy it over the live
file. -/
def revertStep (repo : OsPath) (s : String) (fs : FS) : FS × Option PyErr :=
  if !(fs.pathExists (normalizePath (pyJoin (backupDirOf repo) s))) then
    (fs, some (.fileNotFound ("No backup found for " ++ s)))
  else
    match fs.readFile (normalizePath (pyJoin (backupDirOf repo) s)) with
    | .error e => (fs, some e)
    | .ok content =>
      match fs.writeFile (normalizePath (pyJoin repo s)) content with
      | .error e => (fs, some e)
      | .ok fs1 => (fs1, none)

/-- The `revert_changes` loop over the requested paths. -/
def revertLoop (repo : OsPath) :
    List String → FS → List String → List String →
    List String × List String × FS
  | [], fs, reverted, errors => (reverted, errors, fs)
  | s :: rest, fs, reverted, errors =>
    match revertStep repo s fs with
    | (fs1, none) => revertLoop repo rest fs1 (reverted ++ [s]) errors
    | (fs1, some e) =>
      revertLoop repo rest fs1 reverted
        (errors ++ ["Error reverting " ++ s ++ ": " ++ pyErrStr e])

/-- The dict returned by `revert_changes`. -/
structure RevertResult where
  status : String
  reverted : List String
  errors : List String
deriving DecidableEq

/-- `CodeChangeHandler.revert_changes`. -/
def revertChanges (repo : OsPath) (paths : List String) (fs : FS) :
    RevertResult × FS :=
  match revertLoop repo paths fs [] [] with
  | (reverted, errors, fs1) => (⟨aggStatus reverted errors, reverted, errors⟩, fs1)

/-!
Model of the orchestration layer (`src/agents/agent.py`) and of the
`/apply_changes` route post-processing (`src/main.py` lines 123-136).
The external model call is opaque: its parsed outcome (or parse failure)
is a parameter, as is the behavior of each stage when the orchestrator
itself is studied.
-/

/-- Python values as they appear in the shared context dicts. -/
inductive PyVal where
  | str (s : String)
  | int (n : Int)
  | list (l : List PyVal)
  | dict (d : List (String × PyVal))

/-- `isinstance(v, dict)`. -/
def PyVal.isDict : PyVal → Bool
  | .dict _ => true
  | _ => false

/-- The shared pipeline context / a returned result dict: an
insertion-ordered string-keyed dict. -/
abbrev Context := List (String × PyVal)

/-- `d[k]` as an option. -/
def ctxGet (k : String) (c : Context) : Option PyVal :=
  (c.find? (fun e => e.1 == k)).map (·.2)

/-- `d[k] = v` on an insertion-ordered dict. -/
def ctxAssign (c : Context) (k : String) (v : PyVal) : Context :=
  if c.any (fun e => e.1 == k) then c.map (fun e => if e.1 == k then (k, v) else e)
  else c ++ [(k, v)]

/-- `context.update(result)`. -/
def ctxUpdate (c : Context) (new : Context) : Context :=
  new.foldl (fun acc kv => ctxAssign acc kv.1 kv.2) c

/-- Outcome of `AgentSelector.process` (agent.py lines 220-278) as a
function of the parsed model response.  A `json.loads` failure, a
non-dict JSON value, or a missing required field raises inside the `try`
and is caught, producing an error dict; otherwise the two fields are
passed through unvalidated. -/
inductive SelectorOutcome where
  | ok (selectedAgents : PyVal) (justification : PyVal)
  | err (msg : String)

/-- `AgentSelector.process` response handling. -/
def selectorProcess (parsed : Option PyVal) : SelectorOutcome :=
  match parsed with
  | none => .err "Expecting value: line 1 column 1 (char 0)"
  | some (.dict d) =>
    match (d.find? (fun e => e.1 == "selected_agents")).map (·.2),
        (d.find? (fun e => e.1 == "justification")).map (·.2) with
    | some sa, some j => .ok sa j
    | _, _ => .err "KeyError on selection fields"
  | some _ => .err "TypeError: response is not a JSON object"

/-- The required two-field structure of a selection decision: a JSON
object carrying both `selected_agents` and `justification`.  (This is
the spec-side well-formedness condition; `selectorProcess` errors
exactly on its complement.) -/
def decisionWellFormed (parsed : Option PyVal) : Bool :=
  match parsed with
  | some (.dict d) =>
    d.any (fun e => e.1 == "selected_agents") && d.any (fun e => e.1 == "justification")
  | _ => false

/-- The four keys of `AgentController.__init__`s agent registry. -/
def registeredAgentKeys : List String :=
  ["repository_analysis", "code_reader", "planner", "gpt"]

/-- `result["status"] == "error"` (stage results always carry a
`status` key). -/
def isErrorResult (r : Context) : Bool :=
  match ctxGet "status" r with
  | some (.str s) => s == "error"
  | _ => false

/-- Outcome of the stage-execution loop of `process_repository_prompt`
(lines 330-337).  `keyError` models the uncaught Python `KeyError` from
`self.agents[agent_key]` on an unregistered key: the method has no
try/except, so the exception propagates out of the orchestrator. -/
inductive LoopOutcome where
  | completed (ctx : Context)
  | stageError (result : Context)
  | keyError (key : String)

/-- The stage loop, instrumented with the list of stage keys whose
`process` was actually invoked, in order. -/
def runSelectedAgents (stageRun : String → Context → Context) :
    List String → Context → LoopOutcome × List String
  | [], ctx => (.completed ctx, [])
  | k :: rest, ctx =>
    if registeredAgentKeys.contains k then
      if isErrorResult (stageRun k ctx) then (.stageError (stageRun k ctx), [k])
      else
        ((runSelectedAgents stageRun rest (ctxUpdate ctx (stageRun k ctx))).1,
          k :: (runSelectedAgents stageRun rest (ctxUpdate ctx (stageRun k ctx))).2)
    else (.keyError k, [])

/-- The final response assembly of `process_repository_prompt`
(lines 340-356). -/
def buildResponse (ctx : Context) (selectedAgents justification : PyVal) : Context :=
  let base : Context :=
    [("status", .str "success"),
     ("agent_selection", .dict
       [("agents_used", selectedAgents), ("justification", justification)])]
  let r1 := match ctxGet "results" ctx with
    | some v => base ++ [("analysis", v)]
    | none => base
  let r2 := match ctxGet "plan" ctx with
    | some v => r1 ++ [("plan", v)]
    | none => r1
  match ctxGet "response" ctx with
  | some v => r2 ++ [("gpt_response", v)]
  | none => r2

/-- Overall outcome of one `process_repository_prompt` invocation:
either a returned dict, or an uncaught exception.  `typeError` stands
for iterating/dispatching a `selected_agents` value that is not a list
of strings. -/
inductive OrchOutcome where
  | result (r : Context)
  | keyError (key : String)
  | typeError

/-- Extract a Python list of strings, the only `selected_agents` shape
the dispatch loop can consume without raising. -/
def toKeyList : PyVal → Option (List String)
  | .list l =>
    l.foldr (fun v acc =>
      match v, acc with
      | .str s, some t => some (s :: t)
      | _, _ => none) (some [])
  | _ => none

/-- `AgentController.process_repository_prompt` (lines 308-368),
returning the outcome and the instrumented list of stages run.
`repoFound` abstracts the `get_repository_path` check, `selectorParsed`
the parsed selector response, `stageRun` the behavior of the four
stages. -/
def processRepositoryPrompt (repoFound : Bool) (prompt : Option String)
    (selectorParsed : Option PyVal) (stageRun : String → Context → Context) :
    OrchOutcome × List String :=
  if !repoFound then
    (.result [("status", .str "error"), ("message", .str "Repository not found")], [])
  else
    match prompt with
    | some p =>
      match selectorProcess selectorParsed with
      | .err m => (.result [("status", .str "error"), ("message", .str m)], [])
      | .ok sa j =>
        match toKeyList sa with
        | none => (.typeError, [])
        | some keys =>
          match runSelectedAgents stageRun keys [("prompt", .str p)] with
          | (.completed ctxF, ex) => (.result (buildResponse ctxF sa j), ex)
          | (.stageError r, ex) => (.result r, ex)
          | (.keyError k, ex) => (.keyError k, ex)
    | none =>
      let r := stageRun "repository_analysis" []
      if isErrorResult r then (.result r, ["repository_analysis"])
      else
        (.result [("status", .str "success"),
          ("analysis", (ctxGet "results" r).getD (.str ""))], ["repository_analysis"])

/-- `GPTAgent.process` (agent.py lines 143-184) as a function of the
external call outcome.  On API success the stage returns the raw
response content string under the key `"response"`: there is no JSON
parsing of an explanation/change-set structure and `CodeChangeHandler`
is never invoked; an exception is caught and returned as an error
dict. -/
def gptAgentProcess (api : Except String String) : Context :=
  match api with
  | .ok content => [("status", .str "success"), ("response", .str content)]
  | .error e => [("status", .str "error"), ("message", .str e)]

/-- The dict `/apply_changes` returns when no change results are found. -/
def noChangesResult : Context :=
  [("status", .str "error"),
   ("message", .str "No code changes were generated from the prompt")]

/-- The post-processing of `/apply_changes` (main.py lines 123-136) on a
successful orchestrator result: only a `gpt_response` that is a dict
containing `change_results` produces a success payload. -/
def mainApplyChangesRoute (result : Context) : Context :=
  match ctxGet "gpt_response" result with
  | some (.dict d) =>
    if d.any (fun e => e.1 == "change_results") then
      [("status", .str "success"),
       ("changes", ((d.find? (fun e => e.1 == "change_results")).map (·.2)).getD (.str "")),
       ("explanation", ((d.find? (fun e => e.1 == "explanation")).map (·.2)).getD (.str "")),
       ("diff_summary", ((d.find? (fun e => e.1 == "diff_summary")).map (·.2)).getD (.str ""))]
    else noChangesResult
  | _ => noChangesResult

/-!
Model of `RepositoryAnalysisAgent.process` and
`CodeReaderAgent.process`.
-/

/-- All paths `Path.rglob("*")` yields under `root`: every existing file
or directory strictly below the root. -/
def rglobAll (fs : FS) (root : OsPath) : List OsPath :=
  (fs.files.map (·.1) ++ fs.dirs).filter
    (fun p => root.isPrefixOf p && !(p == root))

/-- The stats computed by `RepositoryAnalysisAgent.process`. -/
structure AnalysisStats where
  totalFiles : Nat
  totalDirectories : Nat
  fileTypes : List (String × Nat)
  repositoryName : String
deriving DecidableEq

/-- `d[k] = d.get(k, 0) + 1` on an insertion-ordered counter dict. -/
def bumpCount (d : List (String × Nat)) (k : String) : List (String × Nat) :=
  if d.any (fun e => e.1 == k) then d.map (fun e => if e.1 == k then (e.1, e.2 + 1) else e)
  else d ++ [(k, 1)]

/-- `RepositoryAnalysisAgent.process` (agent.py lines 28-48): one walk
of the tree, counting files, directories and suffix occurrences. -/
def repositoryAnalysisProcess (fs : FS) (root : OsPath) : AnalysisStats :=
  let files := rglobAll fs root
  { totalFiles := files.countP (fun p => fs.isFile p)
    totalDirectories := files.countP (fun p => fs.isDir p)
    fileTypes := (files.filter (fun p => fs.isFile p)).foldl
      (fun d p => bumpCount d (pySuffix (p.getLastD ""))) []
    repositoryName := root.getLastD "" }

/-- The suffix allow-list of `CodeReaderAgent.process`. -/
def codeExtensions : List String :=
  [".py", ".js", ".java", ".cpp", ".h", ".cs", ".php", ".rb", ".go", ".rs",
   ".ts", ".html", ".css", ".sql", ".md", ".json", ".yaml", ".yml"]

/-- The ignored name fragments of `CodeReaderAgent.process`. -/
def ignoredNameParts : List String :=
  ["venv", "node_modules", "__pycache__", ".git"]

/-- Whether `CodeReaderAgent` includes the file at `p`: a regular file
with an allow-listed suffix whose full path string contains none of the
ignored fragments (the check is plain substring containment on
`str(file_path)`, not a path-segment test). -/
def codeReaderIncludes (fs : FS) (p : OsPath) : Bool :=
  fs.isFile p && codeExtensions.contains (pySuffix (p.getLastD ""))
    && !(ignoredNameParts.any (fun part => pyInStr part (osPathStr p)))

/-- The `code_contents` pieces the reader loop appends for one path: a
path header then the file content, when the file is included.  (The
per-file read-error branch would append an error string instead; in
this model reading a regular file always succeeds.) -/
def codeReaderPieceFor (fs : FS) (root : OsPath) (p : OsPath) : List String :=
  if codeReaderIncludes fs p then
    ["\n--- " ++ relPathStr (p.drop root.length) ++ " ---\n", (fs.fileContent p).getD ""]
  else []

/-- All pieces the reader loop collects, in tree-walk order. -/
def codeReaderPieces (fs : FS) (root : OsPath) : List String :=
  (rglobAll fs root).flatMap (codeReaderPieceFor fs root)

/-- The `code_contents` blob returned by `CodeReaderAgent.process`:
the pieces joined with a newline. -/
def codeReaderOutput (fs : FS) (root : OsPath) : String :=
  joinSep "\n" (codeReaderPieces fs root)

/-! ### Lemmas about the filesystem model -/

theorem find?_filter_of {α : Type} (pr f : α → Bool)
    (h : ∀ e, pr e = true → f e = true) :
    ∀ l : List α, (l.filter f).find? pr = l.find? pr := by
  intro l
  induction l with
  | nil => rfl
  | cons e l ih =>
    rcases hf : f e with _ | _
    · have hpr : pr e = false := by
        rcases hpr : pr e with _ | _
        · rfl
        · exact absurd (h e hpr) (by simp [hf])
      rw [List.filter_cons_of_neg (by simp [hf]), ih,
        List.find?_cons_of_neg _ (by simp [hpr])]
    · rw [List.filter_cons_of_pos (by simp [hf])]
      rcases hpr : pr e with _ | _
      · rw [List.find?_cons_of_neg _ (by simp [hpr]), List.find?_cons_of_neg _ (by simp [hpr]), ih]
      · rw [List.find?_cons_of_pos _ hpr, List.find?_cons_of_pos _ hpr]

theorem fileContent_writeFile {fs fs' : FS} {p : OsPath} {c : String}
    (h : fs.writeFile p c = .ok fs') (q : OsPath) :
    fs'.fileContent q = if q = p then some c else fs.fileContent q := by
  unfold FS.writeFile at h
  split at h
  · exact absurd h (by simp)
  · split at h
    · cases h
      by_cases hq : q = p
      · subst hq
        unfold FS.overwrite FS.fileContent
        rw [if_pos rfl, List.find?_cons_of_pos _ (by simp)]
        rfl
      · unfold FS.overwrite FS.fileContent
        rw [if_neg hq, List.find?_cons_of_neg _ (by simp [Ne.symm hq]),
          find?_filter_of _ _ (fun e he => by
            have he' : e.1 = q := by simpa using he
            simp [he', hq])]
    · exact absurd h (by simp)

theorem dirs_writeFile {fs fs' : FS} {p : OsPath} {c : String}
    (h : fs.writeFile p c = .ok fs') : fs'.dirs = fs.dirs := by
  unfold FS.writeFile at h
  split at h
  · exact absurd h (by simp)
  · split at h
    · cases h
      rfl
    · exact absurd h (by simp)

theorem isDir_writeFile {fs fs' : FS} {p : OsPath} {c : String}
    (h : fs.writeFile p c = .ok fs') (q : OsPath) : fs'.isDir q = fs.isDir q := by
  unfold FS.isDir
  rw [dirs_writeFile h]

theorem isFile_writeFile {fs fs' : FS} {p : OsPath} {c : String}
    (h : fs.writeFile p c = .ok fs') (q : OsPath) (hq : fs.isFile q = true) :
    fs'.isFile q = true := by
  unfold FS.isFile at hq ⊢
  rw [fileContent_writeFile h]
  by_cases hqp : q = p <;> simp [hqp] at hq ⊢
  exact hq

theorem writeFile_ok {fs : FS} {p : OsPath} (c : String)
    (h1 : fs.isDir p = false) (h2 : fs.isFile p = true ∨ fs.isDir p.dropLast = true) :
    fs.writeFile p c = .ok (fs.overwrite p c) := by
  unfold FS.writeFile
  have h2' : (fs.isFile p || fs.isDir p.dropLast) = true := by
    rcases h2 with h2 | h2 <;> simp [h2]
  rw [h1, h2']
  rfl

theorem readFile_eq_ok {fs : FS} {p : OsPath} {v : String}
    (h1 : fs.isDir p = false) (h2 : fs.fileContent p = some v) :
    fs.readFile p = .ok v := by
  unfold FS.readFile
  rw [h1, h2]
  simp

theorem readFile_ok_elim {fs : FS} {p : OsPath} {v : String}
    (h : fs.readFile p = .ok v) : fs.isDir p = false ∧ fs.fileContent p = some v := by
  unfold FS.readFile at h
  split at h
  · exact absurd h (by simp)
  · next hdir =>
    constructor
    · simpa using hdir
    · split at h
      · next hc => cases h; exact hc
      · exact absurd h (by simp)

theorem mkChain_files (fs : FS) (ch : List OsPath) :
    (fs.mkChain ch).1.files = fs.files := by
  induction ch generalizing fs with
  | nil => rfl
  | cons q rest ih =>
    unfold FS.mkChain
    split
    · exact ih fs
    · split
      · rfl
      · exact ih _

theorem mkChain_fileContent (fs : FS) (ch : List OsPath) (q : OsPath) :
    (fs.mkChain ch).1.fileContent q = fs.fileContent q := by
  unfold FS.fileContent
  rw [mkChain_files]

theorem mkChain_isFile (fs : FS) (ch : List OsPath) (q : OsPath) :
    (fs.mkChain ch).1.isFile q = fs.isFile q := by
  unfold FS.isFile
  rw [mkChain_fileContent]

theorem mkChain_isDir_mono {fs : FS} {q : OsPath} (ch : List OsPath)
    (h : fs.isDir q = true) : (fs.mkChain ch).1.isDir q = true := by
  induction ch generalizing fs with
  | nil => exact h
  | cons q0 rest ih =>
    unfold FS.mkChain
    split
    · exact ih h
    · split
      · exact h
      · refine ih ?_
        unfold FS.isDir at h ⊢
        simp only [List.contains_cons]
        simp only [Bool.or_eq_true] at h ⊢
        tauto

theorem mkChain_isDir_new {fs : FS} {q : OsPath} (ch : List OsPath)
    (h : (fs.mkChain ch).1.isDir q = true) :
    fs.isDir q = true ∨ fs.isFile q = false := by
  induction ch generalizing fs with
  | nil => exact Or.inl h
  | cons q0 rest ih =>
    unfold FS.mkChain at h
    split at h
    · exact ih h
    · split at h
      · exact Or.inl h
      · next hnf =>
        rcases ih h with hd | hf
        · have hd' : (q0 = q ∨ fs.dirs.contains q = true) ∨ q = [] := by
            unfold FS.isDir at hd
            simp only [List.contains_cons, Bool.or_eq_true, beq_iff_eq] at hd
            tauto
          rcases hd' with (hq0 | hmem) | hnil
          · subst hq0
            exact Or.inr (by simpa using hnf)
          · exact Or.inl (by unfold FS.isDir; rw [hmem]; simp)
          · exact Or.inl (by unfold FS.isDir; simp [hnil])
        · exact Or.inr hf

theorem mkChain_ok_isDir {fs : FS} (ch : List OsPath)
    (h : (fs.mkChain ch).2 = none) :
    ∀ q ∈ ch, (fs.mkChain ch).1.isDir q = true := by
  induction ch generalizing fs with
  | nil => intro q hq; cases hq
  | cons q0 rest ih =>
    intro q hq
    unfold FS.mkChain at h ⊢
    split at h
    · next hdir =>
      rw [if_pos hdir]
      rcases List.mem_cons.mp hq with hq0 | hmem
      · subst hq0; exact mkChain_isDir_mono rest hdir
      · exact ih h q hmem
    · split at h
      · cases h
      · next hnd hnf =>
        rw [if_neg hnd, if_neg hnf]
        rcases List.mem_cons.mp hq with hq0 | hmem
        · subst hq0
          refine mkChain_isDir_mono rest ?_
          unfold FS.isDir
          simp
        · exact ih h q hmem

theorem mkChain_noop {fs : FS} (ch : List OsPath)
    (h : ∀ q ∈ ch, fs.isDir q = true) : fs.mkChain ch = (fs, none) := by
  induction ch with
  | nil => rfl
  | cons q0 rest ih =>
    unfold FS.mkChain
    rw [if_pos (h q0 (by simp))]
    exact ih (fun q hq => h q (by simp [hq]))

theorem mem_pathChain {t q : OsPath} (hq : q <+: t) (hne : q ≠ []) :
    q ∈ pathChain t := by
  have hlen : q.length ≤ t.length := hq.length_le
  have htake : t.take q.length = q := (List.prefix_iff_eq_take.mp hq).symm
  have hpos : 0 < q.length := List.length_pos.mpr hne
  refine List.mem_map.mpr ⟨q.length - 1, List.mem_range.mpr (by omega), ?_⟩
  rw [Nat.sub_add_cancel hpos, htake]

theorem pathChain_prefixes {t q : OsPath} (hq : q ∈ pathChain t) : q <+: t := by
  rcases List.mem_map.mp hq with ⟨k, _, rfl⟩
  exact List.take_prefix _ _

theorem foldl_normStep_no_dots {l : List String} (h : ∀ s ∈ l, s ≠ "..") :
    ∀ acc, l.foldl normStep acc = acc ++ l := by
  induction l with
  | nil => intro acc; simp
  | cons s rest ih =>
    intro acc
    have hs : s ≠ ".." := h s (by simp)
    rw [List.foldl_cons]
    have hstep : normStep acc s = acc ++ [s] := by
      unfold normStep
      rw [if_neg hs]
    rw [hstep, ih (fun t ht => h t (by simp [ht]))]
    simp

theorem normalizePath_no_dots {l : List String} (h : ∀ s ∈ l, s ≠ "..") :
    normalizePath l = l := by
  unfold normalizePath
  rw [foldl_normStep_no_dots h]
  simp

theorem normalizePath_concat {l : PyPath} {seg : String} (h : seg ≠ "..") :
    normalizePath (l ++ [seg]) = normalizePath l ++ [seg] := by
  unfold normalizePath
  rw [List.foldl_append]
  simp [normStep, h]

theorem normalizePath_concat_dd (l : PyPath) :
    normalizePath (l ++ [".."]) = (normalizePath l).dropLast := by
  unfold normalizePath
  rw [List.foldl_append]
  simp [normStep]

theorem relativeTo_append (base rest : PyPath) :
    relativeTo (base ++ rest) base = some rest := by
  unfold relativeTo
  rw [if_pos (List.isPrefixOf_iff_prefix.mpr (List.prefix_append base rest))]
  rw [List.drop_left]

theorem pathExists_false_elim {fs : FS} {t : OsPath} (h : fs.pathExists t = false) :
    fs.isFile t = false ∧ fs.isDir t = false := by
  unfold FS.pathExists at h
  exact ⟨by rcases hf : fs.isFile t <;> simp [hf] at h ⊢,
    by rcases hd : fs.isDir t <;> simp [hd] at h ⊢⟩

theorem mkdirParents_ok_isDir {fs : FS} {t : OsPath}
    (h : (fs.mkdirParents t).2 = none) :
    ∀ q, q <+: t → (fs.mkdirParents t).1.isDir q = true := by
  intro q hq
  by_cases hqe : q = []
  · subst hqe
    unfold FS.isDir
    simp
  · exact mkChain_ok_isDir _ h q (mem_pathChain hq hqe)

theorem mkdirParents_isFile (fs : FS) (t : OsPath) (q : OsPath) :
    (fs.mkdirParents t).1.isFile q = fs.isFile q :=
  mkChain_isFile fs _ q

theorem mkdirParents_fileContent (fs : FS) (t : OsPath) (q : OsPath) :
    (fs.mkdirParents t).1.fileContent q = fs.fileContent q :=
  mkChain_fileContent fs _ q

theorem mkdirParents_isDir_new {fs : FS} {t : OsPath} {q : OsPath}
    (h : (fs.mkdirParents t).1.isDir q = true) :
    fs.isDir q = true ∨ fs.isFile q = false :=
  mkChain_isDir_new _ h

/-- Through a successful `backup_file` call, a path that was a regular
file and not a directory stays so: the backup write and any directory
creation under the backup area never turn it into a directory. -/
theorem backupFile_preserves {repo : OsPath} {fs fs2 : FS} {fp : PyPath}
    {r : Option PyPath} (h : backupFile repo fs fp = (fs2, .ok r))
    (t : OsPath) (hf : fs.isFile t = true) (hd : fs.isDir t = false) :
    fs2.isFile t = true ∧ fs2.isDir t = false := by
  unfold backupFile at h
  split at h
  · cases h
    exact ⟨hf, hd⟩
  · split at h
    · exact absurd h (by simp)
    · next rel hrel =>
      split at h
      · exact absurd h (by simp)
      · next fs1 hmk =>
        have hf1 : fs1.isFile t = true := by
          have := mkdirParents_isFile fs (normalizePath (backupDirOf repo ++ rel).dropLast) t
          rw [hmk] at this
          simpa [this] using hf
        have hd1 : fs1.isDir t = false := by
          rcases hd1 : fs1.isDir t with _ | _
          · rfl
          · have hnew : (fs.mkdirParents
                (normalizePath (backupDirOf repo ++ rel).dropLast)).1.isDir t = true := by
              rw [hmk]; exact hd1
            rcases mkdirParents_isDir_new hnew with hc | hc
            · rw [hc] at hd; cases hd
            · rw [hc] at hf; cases hf
        split at h
        · exact absurd h (by simp)
        · split at h
          · exact absurd h (by simp)
          · next content hrd =>
            split at h
            · exact absurd h (by simp)
            · next fs2' hwr =>
              cases h
              exact ⟨isFile_writeFile hwr t hf1, by rw [isDir_writeFile hwr t]; exact hd1⟩

/-- In one `apply_changes` iteration a patch is recorded exactly when
the iteration does not error: every failure point of the loop body
precedes the patch insertion at lines 87/91, and the final
`write_text` after a successful read (and backup, when the file
existed) cannot fail in this filesystem model. -/
theorem applyStep_err_iff_patch (repo : OsPath) (s c : String) (fs : FS) :
    (applyStep repo s c fs).2.2 = none ↔ ((applyStep repo s c fs).2.1).isSome = true := by
  unfold applyStep
  rcases hmk : fs.mkdirParents (normalizePath (pyJoin repo s).dropLast) with ⟨fs1, e1⟩
  cases e1 with
  | some e => simp
  | none =>
    dsimp only
    by_cases hex : fs1.pathExists (normalizePath (pyJoin repo s)) = true
    · rw [if_pos hex]
      rcases hrd : fs1.readFile (normalizePath (pyJoin repo s)) with e | original
      · simp
      · dsimp only
        rcases hbk : backupFile repo fs1 (pyJoin repo s) with ⟨fs2, br⟩
        rcases br with e | r
        · simp
        · dsimp only
          obtain ⟨hd1, hc1⟩ := readFile_ok_elim hrd
          have hf1 : fs1.isFile (normalizePath (pyJoin repo s)) = true := by
            unfold FS.isFile
            rw [hc1]
            rfl
          obtain ⟨hf2, hd2⟩ := backupFile_preserves hbk _ hf1 hd1
          rw [writeFile_ok c hd2 (Or.inl hf2)]
          simp
    · rw [if_neg hex]
      obtain ⟨hnf, hnd⟩ := pathExists_false_elim (by simpa using hex)
      rcases List.eq_nil_or_concat (pyJoin repo s) with hnil | ⟨l, last, hcat⟩
      · exfalso
        rw [hnil] at hnd
        have : fs1.isDir (normalizePath ([] : PyPath)) = true := by
          unfold FS.isDir
          simp [normalizePath]
        rw [this] at hnd
        cases hnd
      · rw [List.concat_eq_append] at hcat
        have hdl : (pyJoin repo s).dropLast = l := by
          rw [hcat, List.dropLast_concat]
        by_cases hdd : last = ".."
        · exfalso
          have htgt : normalizePath (pyJoin repo s) = (normalizePath l).dropLast := by
            rw [hcat, hdd, normalizePath_concat_dd]
          have hdir1 : (fs.mkdirParents (normalizePath ((pyJoin repo s).dropLast))).1.isDir
              ((normalizePath ((pyJoin repo s).dropLast)).dropLast) = true :=
            mkdirParents_ok_isDir (by rw [hmk]) _ (List.dropLast_prefix _)
          rw [hmk] at hdir1
          dsimp only at hdir1
          rw [hdl] at hdir1
          rw [htgt, hdir1] at hnd
          cases hnd
        · have htgt : normalizePath (pyJoin repo s) = normalizePath l ++ [last] := by
            rw [hcat, normalizePath_concat hdd]
          have hdir1 : (fs.mkdirParents (normalizePath ((pyJoin repo s).dropLast))).1.isDir
              (normalizePath ((pyJoin repo s).dropLast)) = true :=
            mkdirParents_ok_isDir (by rw [hmk]) _ List.prefix_rfl
          rw [hmk] at hdir1
          dsimp only at hdir1
          rw [hdl] at hdir1
          have hparent : fs1.isDir ((normalizePath (pyJoin repo s)).dropLast) = true := by
            rw [htgt, List.dropLast_concat]
            exact hdir1
          rw [writeFile_ok c hnd (Or.inr hparent)]
          simp

theorem aggStatus_spec (m e : List String) :
    (aggStatus m e = "success" ↔ e = []) ∧
    (aggStatus m e = "partial_success" ↔ (m ≠ [] ∧ e ≠ [])) ∧
    (aggStatus m e = "error" ↔ (m = [] ∧ e ≠ [])) := by
  have h1 : ("success" : String) ≠ "partial_success" := by decide
  have h2 : ("success" : String) ≠ "error" := by decide
  have h3 : ("partial_success" : String) ≠ "error" := by decide
  unfold aggStatus
  split_ifs with he hm
  · simp [he, h1, h2]
  · simp [he, hm, h1.symm, h3]
  · have hm' : m = [] := not_not.mp hm
    simp [he, hm', h2.symm, h3.symm]

theorem dictInsert_fresh {p : List (String × String)} {k : String} (v : String)
    (h : p.all (fun e => !(e.1 == k)) = true) : dictInsert p k v = p ++ [(k, v)] := by
  have hany : p.any (fun e => e.1 == k) = false := by
    simp only [List.any_eq_false]
    intro x hx
    simp only [List.all_eq_true] at h
    simpa using h x hx
  unfold dictInsert
  rw [if_neg (by simp [hany])]

theorem applyLoop_patches_eq_modified (repo : OsPath) :
    ∀ (changes : List (String × String)) (fs : FS)
      (modified errors : List String) (patches : List (String × String)),
      patches.map Prod.fst = modified →
      (∀ k ∈ changes.map Prod.fst, patches.all (fun e => !(e.1 == k)) = true) →
      (changes.map Prod.fst).Nodup →
      (applyLoop repo changes fs modified errors patches).2.2.1.map Prod.fst =
        (applyLoop repo changes fs modified errors patches).1 := by
  intro changes
  induction changes with
  | nil =>
    intro fs modified errors patches hinv _ _
    exact hinv
  | cons hd rest ih =>
    rcases hd with ⟨s, c⟩
    intro fs modified errors patches hinv hkeys hnodup
    have hiff := applyStep_err_iff_patch repo s c fs
    unfold applyLoop
    rcases hst : applyStep repo s c fs with ⟨fs1, patchOpt, errOpt⟩
    rw [hst] at hiff
    dsimp only at hiff ⊢
    have hfresh : patches.all (fun e => !(e.1 == s)) = true :=
      hkeys s (by simp)
    have hkeys' : ∀ k ∈ rest.map Prod.fst, patches.all (fun e => !(e.1 == k)) = true :=
      fun k hk => hkeys k (by simp [hk])
    have hnodup' : (rest.map Prod.fst).Nodup := by
      simpa using hnodup.of_cons
    have hs_not : s ∉ rest.map Prod.fst := by
      have := hnodup
      simp only [List.map_cons, List.nodup_cons] at this
      exact this.1
    cases errOpt with
    | none =>
      have hsome : patchOpt.isSome = true := hiff.mp rfl
      rcases patchOpt with _ | pt
      · cases hsome
      · dsimp only
        rw [dictInsert_fresh pt hfresh]
        refine ih fs1 (modified ++ [s]) errors (patches ++ [(s, pt)]) ?_ ?_ hnodup'
        · rw [List.map_append, hinv]
          rfl
        · intro k hk
          rw [List.all_append]
          rw [hkeys' k hk]
          have hne : ¬ s = k := fun hsk => hs_not (hsk ▸ hk)
          simp [hne]
    | some err =>
      have hnone : patchOpt = none := by
        rcases hp : patchOpt with _ | pt
        · rfl
        · exfalso
          rw [hp] at hiff
          have hcon : (some err : Option PyErr) = none := hiff.mpr (by simp)
          cases hcon
      subst hnone
      dsimp only
      exact ih fs1 modified
        (errors ++ ["Error modifying " ++ s ++ ": " ++ pyErrStr err]) patches
        hinv hkeys' hnodup'

theorem revertLoop_cons (repo : OsPath) (s : String) (rest : List String)
    (fs : FS) (rev err : List String) :
    revertLoop repo (s :: rest) fs rev err =
      (match revertStep repo s fs with
       | (fs1, none) => revertLoop repo rest fs1 (rev ++ [s]) err
       | (fs1, some e) =>
         revertLoop repo rest fs1 rev
           (err ++ ["Error reverting " ++ s ++ ": " ++ pyErrStr e])) := rfl

theorem revertLoop_append (repo : OsPath) (xs ys : List String) :
    ∀ (fs : FS) (rev err : List String),
      revertLoop repo (xs ++ ys) fs rev err =
        revertLoop repo ys (revertLoop repo xs fs rev err).2.2
          (revertLoop repo xs fs rev err).1 (revertLoop repo xs fs rev err).2.1 := by
  induction xs with
  | nil => intro fs rev err; rfl
  | cons s rest ih =>
    intro fs rev err
    rw [List.cons_append, revertLoop_cons repo s (rest ++ ys), revertLoop_cons repo s rest]
    rcases hsp : revertStep repo s fs with ⟨fs1, eo⟩
    cases eo with
    | none =>
      dsimp only
      exact ih fs1 (rev ++ [s]) err
    | some e =>
      dsimp only
      exact ih fs1 rev (err ++ ["Error reverting " ++ s ++ ": " ++ pyErrStr e])

theorem revertLoop_acc (repo : OsPath) (ps : List String) :
    ∀ (fs : FS) (rev err : List String),
      revertLoop repo ps fs rev err =
        (rev ++ (revertLoop repo ps fs [] []).1,
         err ++ (revertLoop repo ps fs [] []).2.1,
         (revertLoop repo ps fs [] []).2.2) := by
  induction ps with
  | nil => intro fs rev err; simp [revertLoop]
  | cons s rest ih =>
    intro fs rev err
    rw [revertLoop_cons repo s rest fs rev err, revertLoop_cons repo s rest fs [] []]
    rcases hsp : revertStep repo s fs with ⟨fs1, eo⟩
    cases eo with
    | none =>
      dsimp only
      simp only [List.nil_append]
      rw [ih fs1 (rev ++ [s]) err, ih fs1 [s] []]
      simp
    | some e =>
      dsimp only
      simp only [List.nil_append]
      rw [ih fs1 rev (err ++ ["Error reverting " ++ s ++ ": " ++ pyErrStr e]),
        ih fs1 [] ["Error reverting " ++ s ++ ": " ++ pyErrStr e]]
      simp

theorem revertStep_missing {repo : OsPath} {p : String} {fs : FS}
    (h : fs.pathExists (normalizePath (pyJoin (backupDirOf repo) p)) = false) :
    revertStep repo p fs =
      (fs, some (.fileNotFound ("No backup found for " ++ p))) := by
  unfold revertStep
  rw [if_pos (by simp [h])]

/-! ### The claims -/

/-- C6: for every `apply_changes` call and every `revert_changes` call,
the returned status is `"success"` iff the per-file error list is empty,
`"partial_success"` iff at least one file succeeded and at least one
failed, and `"error"` iff at least one failed and none succeeded. -/
theorem C6_status_three_way (repo : OsPath) (changes : List (String × String))
    (paths : List String) (fs fsr : FS) :
    (((applyChanges repo changes fs).1.status = "success" ↔
        (applyChanges repo changes fs).1.errors = []) ∧
      ((applyChanges repo changes fs).1.status = "partial_success" ↔
        ((applyChanges repo changes fs).1.modified ≠ [] ∧
          (applyChanges repo changes fs).1.errors ≠ [])) ∧
      ((applyChanges repo changes fs).1.status = "error" ↔
        ((applyChanges repo changes fs).1.modified = [] ∧
          (applyChanges repo changes fs).1.errors ≠ []))) ∧
    (((revertChanges repo paths fsr).1.status = "success" ↔
        (revertChanges repo paths fsr).1.errors = []) ∧
      ((revertChanges repo paths fsr).1.status = "partial_success" ↔
        ((revertChanges repo paths fsr).1.reverted ≠ [] ∧
          (revertChanges repo paths fsr).1.errors ≠ [])) ∧
      ((revertChanges repo paths fsr).1.status = "error" ↔
        ((revertChanges repo paths fsr).1.reverted = [] ∧
          (revertChanges repo paths fsr).1.errors ≠ []))) := by
  constructor
  · unfold applyChanges
    rcases applyLoop repo changes fs [] [] [] with ⟨m, e, p, f⟩
    exact aggStatus_spec m e
  · unfold revertChanges
    rcases revertLoop repo paths fsr [] [] with ⟨r, e, f⟩
    exact aggStatus_spec r e

/-- C3: the patches map returned by `apply_changes` has an entry exactly
for the successfully processed files (those in `modified_files`, in the
same order); a path that only shows up in the error list has no patch
entry.  The key hypothesis mirrors Python dicts: the change-set keys are
distinct. -/
theorem C3_patches_exactly_modified (repo : OsPath)
    (changes : List (String × String)) (fs : FS)
    (hnd : (changes.map Prod.fst).Nodup) :
    (applyChanges repo changes fs).1.patches.map Prod.fst =
        (applyChanges repo changes fs).1.modified ∧
    ∀ s, s ∉ (applyChanges repo changes fs).1.modified →
      (applyChanges repo changes fs).1.patches.find? (fun e => e.1 == s) = none := by
  have hmain := applyLoop_patches_eq_modified repo changes fs [] [] [] rfl
    (fun k _ => rfl) hnd
  unfold applyChanges
  rcases h : applyLoop repo changes fs [] [] [] with ⟨m, e, p, f⟩
  rw [h] at hmain
  dsimp only at hmain ⊢
  refine ⟨hmain, ?_⟩
  intro s hs
  rw [List.find?_eq_none]
  intro x hx
  simp only [beq_iff_eq]
  intro hxs
  refine hs ?_
  rw [← hmain]
  exact hxs ▸ List.mem_map_of_mem Prod.fst hx

theorem C3_patches_exactly_modified_witness :
    ((([("a.txt", "X"), ("b.txt", "Y")] : List (String × String)).map Prod.fst).Nodup) ∧
    ((applyChanges ["r"] [("a.txt", "X"), ("b.txt", "Y")]
        ⟨[], [["r"], ["r", ".code_backup"]]⟩).1.patches.map Prod.fst =
      (applyChanges ["r"] [("a.txt", "X"), ("b.txt", "Y")]
        ⟨[], [["r"], ["r", ".code_backup"]]⟩).1.modified) :=
  ⟨by decide,
    (C3_patches_exactly_modified ["r"] [("a.txt", "X"), ("b.txt", "Y")]
      ⟨[], [["r"], ["r", ".code_backup"]]⟩ (by decide)).1⟩

/-- C8: in one `revert_changes` call, a requested path whose backup is
absent at that point contributes exactly one error entry, placed between
the errors of the paths before it and those after it, and removing that
path from the request leaves every other path's outcome and the final
filesystem unchanged. -/
theorem C8_missing_backup_isolated (repo : OsPath) (fs : FS)
    (ps1 ps2 : List String) (p : String)
    (h : (revertLoop repo ps1 fs [] []).2.2.pathExists
      (normalizePath (pyJoin (backupDirOf repo) p)) = false) :
    (revertChanges repo (ps1 ++ p :: ps2) fs).1.errors =
        (revertLoop repo ps1 fs [] []).2.1
          ++ ["Error reverting " ++ p ++ ": No backup found for " ++ p]
          ++ (revertLoop repo ps2 (revertLoop repo ps1 fs [] []).2.2 [] []).2.1 ∧
    (revertChanges repo (ps1 ++ ps2) fs).1.errors =
        (revertLoop repo ps1 fs [] []).2.1
          ++ (revertLoop repo ps2 (revertLoop repo ps1 fs [] []).2.2 [] []).2.1 ∧
    (revertChanges repo (ps1 ++ p :: ps2) fs).1.reverted =
        (revertChanges repo (ps1 ++ ps2) fs).1.reverted ∧
    (revertChanges repo (ps1 ++ p :: ps2) fs).2 =
        (revertChanges repo (ps1 ++ ps2) fs).2 := by
  have hfull : revertLoop repo (ps1 ++ p :: ps2) fs [] [] =
      ((revertLoop repo ps1 fs [] []).1
          ++ (revertLoop repo ps2 (revertLoop repo ps1 fs [] []).2.2 [] []).1,
        (revertLoop repo ps1 fs [] []).2.1
          ++ ["Error reverting " ++ p ++ ": No backup found for " ++ p]
          ++ (revertLoop repo ps2 (revertLoop repo ps1 fs [] []).2.2 [] []).2.1,
        (revertLoop repo ps2 (revertLoop repo ps1 fs [] []).2.2 [] []).2.2) := by
    rw [revertLoop_append, revertLoop_cons, revertStep_missing h]
    dsimp only
    rw [revertLoop_acc repo ps2 _ (revertLoop repo ps1 fs [] []).1]
    simp [pyErrStr]
    rw [← String.append_assoc]
    congr 1
    rw [String.append_assoc]
    congr 1
  have hrest : revertLoop repo (ps1 ++ ps2) fs [] [] =
      ((revertLoop repo ps1 fs [] []).1
          ++ (revertLoop repo ps2 (revertLoop repo ps1 fs [] []).2.2 [] []).1,
        (revertLoop repo ps1 fs [] []).2.1
          ++ (revertLoop repo ps2 (revertLoop repo ps1 fs [] []).2.2 [] []).2.1,
        (revertLoop repo ps2 (revertLoop repo ps1 fs [] []).2.2 [] []).2.2) := by
    rw [revertLoop_append]
    rw [revertLoop_acc repo ps2 _ (revertLoop repo ps1 fs [] []).1]
  unfold revertChanges
  rw [hfull, hrest]
  dsimp only
  exact ⟨rfl, rfl, rfl, rfl⟩

theorem C8_missing_backup_isolated_witness :
    ((revertLoop ["r"] [] ⟨[(["r", ".code_backup", "b.txt"], "B0"), (["r", "b.txt"], "B1")],
        [["r"], ["r", ".code_backup"]]⟩ [] []).2.2.pathExists
      (normalizePath (pyJoin (backupDirOf ["r"]) "nope.txt")) = false) ∧
    (revertChanges ["r"] ([] ++ "nope.txt" :: ["b.txt"])
        ⟨[(["r", ".code_backup", "b.txt"], "B0"), (["r", "b.txt"], "B1")],
          [["r"], ["r", ".code_backup"]]⟩).1.reverted =
      (revertChanges ["r"] ([] ++ ["b.txt"])
        ⟨[(["r", ".code_backup", "b.txt"], "B0"), (["r", "b.txt"], "B1")],
          [["r"], ["r", ".code_backup"]]⟩).1.reverted :=
  ⟨by decide,
    (C8_missing_backup_isolated ["r"]
      ⟨[(["r", ".code_backup", "b.txt"], "B0"), (["r", "b.txt"], "B1")],
        [["r"], ["r", ".code_backup"]]⟩ [] ["b.txt"] "nope.txt" (by decide)).2.2.1⟩

/-- C1 (code bug): `apply_changes` performs no path validation at all.
On a change set holding the escaping path `"../escape.txt"` and a valid
path, both are applied: the escaping path is written OUTSIDE the
repository root (at `uploads/escape.txt`, not under `uploads/demo`),
it appears in `modified_files`, the error list stays empty and the
status is `"success"` — nothing is rejected. -/
theorem C1_escaping_path_is_applied :
    (applyChanges ["uploads", "demo"] [("../escape.txt", "Y"), ("ok.txt", "OK")]
        ⟨[], [["uploads"], ["uploads", "demo"],
          ["uploads", "demo", ".code_backup"]]⟩).1.status = "success" ∧
    (applyChanges ["uploads", "demo"] [("../escape.txt", "Y"), ("ok.txt", "OK")]
        ⟨[], [["uploads"], ["uploads", "demo"],
          ["uploads", "demo", ".code_backup"]]⟩).1.modified
      = ["../escape.txt", "ok.txt"] ∧
    (applyChanges ["uploads", "demo"] [("../escape.txt", "Y"), ("ok.txt", "OK")]
        ⟨[], [["uploads"], ["uploads", "demo"],
          ["uploads", "demo", ".code_backup"]]⟩).1.errors = [] ∧
    (applyChanges ["uploads", "demo"] [("../escape.txt", "Y"), ("ok.txt", "OK")]
        ⟨[], [["uploads"], ["uploads", "demo"],
          ["uploads", "demo", ".code_backup"]]⟩).2.fileContent
      ["uploads", "escape.txt"] = some "Y" ∧
    (["uploads", "demo"] : OsPath).isPrefixOf ["uploads", "escape.txt"] = false ∧
    (applyChanges ["uploads", "demo"] [("../escape.txt", "Y"), ("ok.txt", "OK")]
        ⟨[], [["uploads"], ["uploads", "demo"],
          ["uploads", "demo", ".code_backup"]]⟩).2.fileContent
      ["uploads", "demo", "escape.txt"] = none := by
  refine ⟨rfl, rfl, rfl, rfl, rfl, rfl⟩

/-- C4 (code bug): applying a change to a file that already has a backup
at its canonical backup path never reaches the timestamp branch
successfully: line 34 runs `datetime.now()` under `import datetime`,
which raises `AttributeError`, so the whole file errors out — no
timestamped backup is stored, the live file is not modified, and the
filesystem is left exactly as it was. -/
theorem C4_timestamp_branch_raises :
    applyChanges ["r"] [("a.txt", "Z")]
        ⟨[(["r", "a.txt"], "X"), (["r", ".code_backup", "a.txt"], "PREV")],
          [["r"], ["r", ".code_backup"]]⟩ =
      (⟨"error", [],
          ["Error modifying a.txt: module datetime has no attribute now"], []⟩,
        ⟨[(["r", "a.txt"], "X"), (["r", ".code_backup", "a.txt"], "PREV")],
          [["r"], ["r", ".code_backup"]]⟩) := by
  rfl

/-- C7, counterexample to the claim as stated: when a backup already
exists at `.code_backup/a.txt`, applying `{"a.txt": "Y"}` to a live file
containing `"X"` does NOT leave the live file containing `"Y"` — the
iteration fails (the timestamp branch raises), the live file still holds
`"X"` and the status is `"error"`. -/
theorem C7_counterexample_prior_backup :
    (⟨[(["r", "a.txt"], "X"), (["r", ".code_backup", "a.txt"], "B")],
        [["r"], ["r", ".code_backup"]]⟩ : FS).fileContent ["r", "a.txt"]
      = some "X" ∧
    ¬ ((applyChanges ["r"] [("a.txt", "Y")]
        ⟨[(["r", "a.txt"], "X"), (["r", ".code_backup", "a.txt"], "B")],
          [["r"], ["r", ".code_backup"]]⟩).2.fileContent ["r", "a.txt"]
      = some "Y") ∧
    (applyChanges ["r"] [("a.txt", "Y")]
        ⟨[(["r", "a.txt"], "X"), (["r", ".code_backup", "a.txt"], "B")],
          [["r"], ["r", ".code_backup"]]⟩).2.fileContent ["r", "a.txt"]
      = some "X" ∧
    (applyChanges ["r"] [("a.txt", "Y")]
        ⟨[(["r", "a.txt"], "X"), (["r", ".code_backup", "a.txt"], "B")],
          [["r"], ["r", ".code_backup"]]⟩).1.status = "error" := by
  refine ⟨rfl, by decide, rfl, rfl⟩

theorem find?_eq_none_of_any_false {d : List (String × PyVal)} {key : String}
    (h : d.any (fun e => e.1 == key) = false) :
    d.find? (fun e => e.1 == key) = none := by
  rcases hf : d.find? (fun e => e.1 == key) with _ | v
  · exact hf
  · exfalso
    have hmem := List.mem_of_find?_eq_some hf
    have hpred := List.find?_some hf
    have : d.any (fun e => e.1 == key) = true := List.any_eq_true.mpr ⟨v, hmem, hpred⟩
    rw [this] at h
    cases h

theorem selectorProcess_err_of_malformed {parsed : Option PyVal}
    (h : decisionWellFormed parsed = false) :
    ∃ m, selectorProcess parsed = .err m := by
  match parsed with
  | none => exact ⟨_, rfl⟩
  | some (.str s) => exact ⟨_, rfl⟩
  | some (.int n) => exact ⟨_, rfl⟩
  | some (.list l) => exact ⟨_, rfl⟩
  | some (.dict d) =>
    unfold decisionWellFormed at h
    dsimp only at h
    unfold selectorProcess
    dsimp only
    rcases hand : d.any (fun e => e.1 == "selected_agents") with _ | _
    · rw [find?_eq_none_of_any_false hand]
      exact ⟨"KeyError on selection fields", rfl⟩
    · have hj : d.any (fun e => e.1 == "justification") = false := by
        rw [hand] at h
        simpa using h
      rw [find?_eq_none_of_any_false hj]
      rcases hsa : d.find? (fun e => e.1 == "selected_agents") with _ | v
      · rw [hsa]
        exact ⟨"KeyError on selection fields", rfl⟩
      · rw [hsa]
        exact ⟨"KeyError on selection fields", rfl⟩

/-- C5: a selector decision that is not parseable as the required
two-field `selected_agents`/`justification` structure makes
`process_repository_prompt` return an error-status result at once: no
stage's `process` is invoked for that run. -/
theorem C5_malformed_selection_halts (prompt : String) (parsed : Option PyVal)
    (stageRun : String → Context → Context)
    (h : decisionWellFormed parsed = false) :
    (∃ m, (processRepositoryPrompt true (some prompt) parsed stageRun).1 =
        .result [("status", .str "error"), ("message", .str m)]) ∧
    (processRepositoryPrompt true (some prompt) parsed stageRun).2 = [] := by
  rcases selectorProcess_err_of_malformed h with ⟨m, hm⟩
  unfold processRepositoryPrompt
  dsimp only
  rw [hm]
  exact ⟨⟨m, rfl⟩, rfl⟩

theorem C5_malformed_selection_halts_witness :
    decisionWellFormed (some (.str "not a JSON object")) = false ∧
    (processRepositoryPrompt true (some "explain the repo")
        (some (.str "not a JSON object")) (fun _ _ => [])).2 = [] :=
  ⟨rfl,
    (C5_malformed_selection_halts "explain the repo" (some (.str "not a JSON object"))
      (fun _ _ => []) rfl).2⟩

theorem foldr_toKeyList (l : List String) :
    ((l.map PyVal.str).foldr (fun v acc =>
      match v, acc with
      | .str s, some t => some (s :: t)
      | _, _ => none) (some [])) = some l := by
  induction l with
  | nil => rfl
  | cons x xs ih => simp [ih]

theorem toKeyList_map_str (l : List String) :
    toKeyList (.list (l.map .str)) = some l :=
  foldr_toKeyList l

theorem runSelectedAgents_unknown (stageRun : String → Context → Context)
    (post : List String) (k : String) (hk : k ∉ registeredAgentKeys) :
    ∀ (pre : List String) (ctx : Context),
      (∀ x ∈ pre, x ∈ registeredAgentKeys) →
      (∀ x c, x ∈ pre → isErrorResult (stageRun x c) = false) →
      runSelectedAgents stageRun (pre ++ k :: post) ctx = (.keyError k, pre) := by
  intro pre
  induction pre with
  | nil =>
    intro ctx _ _
    rw [List.nil_append]
    unfold runSelectedAgents
    rw [if_neg (by simp [hk])]
  | cons x xs ih =>
    intro ctx hpre hok
    have hx : x ∈ registeredAgentKeys := hpre x (by simp)
    have hxe : isErrorResult (stageRun x ctx) = false := hok x ctx (by simp)
    rw [List.cons_append]
    unfold runSelectedAgents
    rw [if_pos (by simpa using hx), if_neg (by simp [hxe])]
    rw [ih (ctxUpdate ctx (stageRun x ctx))
      (fun y hy => hpre y (by simp [hy]))
      (fun y c hy => hok y c (by simp [hy]))]

/-- C9: when `selected_agents` contains an identifier outside the four
registered keys, `process_repository_prompt` ends in an uncaught
`KeyError` raised while dispatching that identifier (the method body has
no try/except), rather than returning an error-status dict; the stages
listed before the unknown identifier have already run by that point. -/
theorem C9_unknown_key_raises_keyerror (prompt just : String)
    (pre post : List String) (k : String)
    (stageRun : String → Context → Context)
    (hpre : ∀ x ∈ pre, x ∈ registeredAgentKeys)
    (hk : k ∉ registeredAgentKeys)
    (hok : ∀ x c, x ∈ pre → isErrorResult (stageRun x c) = false) :
    processRepositoryPrompt true (some prompt)
        (some (.dict
          [("selected_agents", .list ((pre ++ k :: post).map .str)),
           ("justification", .str just)])) stageRun =
      (.keyError k, pre) := by
  have hsel : selectorProcess (some (.dict
      [("selected_agents", .list ((pre ++ k :: post).map .str)),
       ("justification", .str just)])) =
      .ok (.list ((pre ++ k :: post).map .str)) (.str just) := rfl
  unfold processRepositoryPrompt
  simp only [hsel, toKeyList_map_str]
  rw [runSelectedAgents_unknown stageRun post k hk pre _ hpre hok]
  rfl

theorem C9_unknown_key_raises_keyerror_witness :
    ("bogus" ∉ registeredAgentKeys) ∧
    processRepositoryPrompt true (some "p")
        (some (.dict
          [("selected_agents",
            .list ((["repository_analysis"] ++ "bogus" :: []).map .str)),
           ("justification", .str "j")]))
        (fun _ _ => [("status", .str "success")]) =
      (.keyError "bogus", ["repository_analysis"]) :=
  ⟨by decide,
    C9_unknown_key_raises_keyerror "p" "j" ["repository_analysis"] [] "bogus"
      (fun _ _ => [("status", .str "success")])
      (by intro x hx; simp at hx; simp [hx, registeredAgentKeys])
      (by decide)
      (fun x c hx => rfl)⟩

/-- C2 (code bug): `GPTAgent.process` never parses its model response as
the two-field explanation/change-set structure and never invokes the
change handler: it returns the raw response text under `"response"`.
The orchestrator therefore surfaces `gpt_response` as a plain string,
and the `/apply_changes` route — which looks for a dict carrying
`change_results` — always answers with the fixed "No code changes were
generated from the prompt" error, whatever the model returned. -/
theorem C2_modifier_never_parses_or_applies (raw prompt : String) :
    gptAgentProcess (.ok raw) =
        [("status", .str "success"), ("response", .str raw)] ∧
    (processRepositoryPrompt true (some prompt)
        (some (.dict [("selected_agents",
            .list [.str "repository_analysis", .str "gpt"]),
          ("justification", .str "j")]))
        (fun key _ => if key == "gpt" then gptAgentProcess (.ok raw)
          else [("status", .str "success")])).1 =
      .result [("status", .str "success"),
        ("agent_selection", .dict [("agents_used",
            .list [.str "repository_analysis", .str "gpt"]),
          ("justification", .str "j")]),
        ("gpt_response", .str raw)] ∧
    mainApplyChangesRoute [("status", .str "success"),
        ("agent_selection", .dict [("agents_used",
            .list [.str "repository_analysis", .str "gpt"]),
          ("justification", .str "j")]),
        ("gpt_response", .str raw)] =
      noChangesResult := by
  exact ⟨rfl, rfl, rfl⟩

theorem flatMap_piece_infix {α β : Type} (f : α → List β) {l : List α} {a : α}
    (h : a ∈ l) : f a <:+: l.flatMap f := by
  rcases List.append_of_mem h with ⟨s, t, rfl⟩
  refine ⟨s.flatMap f, t.flatMap f, ?_⟩
  rw [List.flatMap_append, List.flatMap_cons]
  simp [List.append_assoc]

theorem mem_files_of_fileContent {fs : FS} {p : OsPath} {c : String}
    (h : fs.fileContent p = some c) : p ∈ fs.files.map Prod.fst := by
  unfold FS.fileContent at h
  rcases hf : fs.files.find? (fun e => e.1 == p) with _ | e
  · rw [hf] at h
    cases h
  · have hmem := List.mem_of_find?_eq_some hf
    have hpred := List.find?_some hf
    have he : e.1 = p := by simpa using hpred
    exact he ▸ List.mem_map_of_mem Prod.fst hmem

theorem mem_rglobAll_of_fileContent {fs : FS} {repo : OsPath} {rest : List String}
    {c : String} (h : fs.fileContent (repo ++ rest) = some c) (hrne : rest ≠ []) :
    repo ++ rest ∈ rglobAll fs repo := by
  unfold rglobAll
  refine List.mem_filter.mpr ⟨List.mem_append_left _ (mem_files_of_fileContent h), ?_⟩
  have h1 : repo.isPrefixOf (repo ++ rest) = true :=
    List.isPrefixOf_iff_prefix.mpr (List.prefix_append repo rest)
  have h2 : ¬ (repo ++ rest = repo) := by
    intro hcon
    apply hrne
    have := congrArg List.length hcon
    simp at this
    exact this
  simp [h1, h2]

/-- C10: constructing the change handler immediately creates the
`.code_backup` directory inside the repository root, `.code_backup` is
not in the Code-Reader's ignored-name set, and a file stored in the
backup area (with an allow-listed suffix and no ignored fragment in its
path string) is counted by a subsequent Repository-Analysis run and its
header and content are included in a subsequent Code-Reader run's piece
list, whose newline-join is the returned blob. -/
theorem C10_backup_dir_created_and_visible
    (repo : OsPath) (fs fs2 : FS) (rest : List String) (c : String)
    (hIF : fs.isFile (backupDirOf repo) = false)
    (hRD : fs.isDir repo = true)
    (hf2 : fs2.fileContent (backupDirOf repo ++ rest) = some c)
    (hsuf : codeExtensions.contains
      (pySuffix ((backupDirOf repo ++ rest).getLastD "")) = true)
    (hig : (ignoredNameParts.any
      (fun part => pyInStr part (osPathStr (backupDirOf repo ++ rest)))) = false) :
    (∃ fs', handlerInit repo fs = .ok fs' ∧
      fs'.isDir (backupDirOf repo) = true) ∧
    ".code_backup" ∉ ignoredNameParts ∧
    backupDirOf repo ++ rest ∈ rglobAll fs2 repo ∧
    0 < (repositoryAnalysisProcess fs2 repo).totalFiles ∧
    codeReaderPieceFor fs2 repo (backupDirOf repo ++ rest) =
      ["\n--- " ++ relPathStr ((backupDirOf repo ++ rest).drop repo.length)
        ++ " ---\n", c] ∧
    codeReaderPieceFor fs2 repo (backupDirOf repo ++ rest)
      <:+: codeReaderPieces fs2 repo ∧
    codeReaderOutput fs2 repo = joinSep "\n" (codeReaderPieces fs2 repo) := by
  have hbmem : backupDirOf repo ++ rest ∈ rglobAll fs2 repo := by
    have : backupDirOf repo ++ rest = repo ++ (".code_backup" :: rest) := by
      unfold backupDirOf
      simp
    rw [this] at hf2 ⊢
    exact mem_rglobAll_of_fileContent hf2 (by simp)
  have hinc : codeReaderIncludes fs2 (backupDirOf repo ++ rest) = true := by
    unfold codeReaderIncludes
    have hisf : fs2.isFile (backupDirOf repo ++ rest) = true := by
      unfold FS.isFile
      rw [hf2]
      rfl
    rw [hisf, hsuf, hig]
    rfl
  refine ⟨?_, by decide, hbmem, ?_, ?_, ?_, rfl⟩
  · by_cases hd : fs.isDir (backupDirOf repo) = true
    · exact ⟨fs, by unfold handlerInit FS.mkdirExistOk; rw [if_pos hd], hd⟩
    · refine ⟨{ fs with dirs := backupDirOf repo :: fs.dirs }, ?_, ?_⟩
      · unfold handlerInit FS.mkdirExistOk
        rw [if_neg hd, if_neg (by simp [hIF])]
        rw [if_pos (by unfold backupDirOf; rw [List.dropLast_concat]; exact hRD)]
      · unfold FS.isDir
        simp
  · unfold repositoryAnalysisProcess
    dsimp only
    refine List.countP_pos_iff.mpr ⟨backupDirOf repo ++ rest, hbmem, ?_⟩
    unfold FS.isFile
    rw [hf2]
    rfl
  · unfold codeReaderPieceFor
    rw [if_pos hinc, hf2]
    rfl
  · have := flatMap_piece_infix (codeReaderPieceFor fs2 repo) hbmem
    exact this

theorem C10_backup_dir_created_and_visible_witness :
    ((⟨[], [["u"], ["u", "r"]]⟩ : FS).isFile (backupDirOf ["u", "r"]) = false ∧
      (⟨[], [["u"], ["u", "r"]]⟩ : FS).isDir ["u", "r"] = true ∧
      (⟨[(["u", "r", ".code_backup", "m.py"], "print(1)")],
        [["u"], ["u", "r"], ["u", "r", ".code_backup"]]⟩ : FS).fileContent
        (backupDirOf ["u", "r"] ++ ["m.py"]) = some "print(1)" ∧
      codeExtensions.contains
        (pySuffix ((backupDirOf ["u", "r"] ++ ["m.py"]).getLastD "")) = true ∧
      (ignoredNameParts.any (fun part =>
        pyInStr part (osPathStr (backupDirOf ["u", "r"] ++ ["m.py"])))) = false) ∧
    (backupDirOf ["u", "r"] ++ ["m.py"] ∈
      rglobAll ⟨[(["u", "r", ".code_backup", "m.py"], "print(1)")],
        [["u"], ["u", "r"], ["u", "r", ".code_backup"]]⟩ ["u", "r"]) ∧
    0 < (repositoryAnalysisProcess
      ⟨[(["u", "r", ".code_backup", "m.py"], "print(1)")],
        [["u"], ["u", "r"], ["u", "r", ".code_backup"]]⟩ ["u", "r"]).totalFiles :=
  ⟨⟨rfl, rfl, rfl, rfl, rfl⟩,
    (C10_backup_dir_created_and_visible ["u", "r"] ⟨[], [["u"], ["u", "r"]]⟩
      ⟨[(["u", "r", ".code_backup", "m.py"], "print(1)")],
        [["u"], ["u", "r"], ["u", "r", ".code_backup"]]⟩ ["m.py"] "print(1)"
      rfl rfl rfl rfl rfl).2.2.1,
    (C10_backup_dir_created_and_visible ["u", "r"] ⟨[], [["u"], ["u", "r"]]⟩
      ⟨[(["u", "r", ".code_backup", "m.py"], "print(1)")],
        [["u"], ["u", "r"], ["u", "r", ".code_backup"]]⟩ ["m.py"] "print(1)"
      rfl rfl rfl rfl rfl).2.2.2.1⟩

theorem pySplitlines_no_breaks :
    ∀ (cs : List Char) (fuel : Nat) (acc : List Char),
      cs.length < fuel → (∀ c ∈ cs, c ∉ lineBreakChars) →
      pySplitlines fuel acc cs =
        if acc.reverse ++ cs = [] then [] else [String.mk (acc.reverse ++ cs)] := by
  intro cs
  induction cs with
  | nil =>
    intro fuel acc hfuel _
    match fuel, hfuel with
    | fuel + 1, _ =>
      unfold pySplitlines
      by_cases ha : acc = []
      · subst ha
        simp
      · rw [if_neg ha, if_neg (by simp [ha])]
        simp
  | cons c rest ih =>
    intro fuel acc hfuel hnb
    match fuel, hfuel with
    | fuel + 1, hf =>
      have hc : c ∉ lineBreakChars := hnb c (by simp)
      have hcr : ¬ c = '\r' := fun h => hc (by rw [h]; decide)
      unfold pySplitlines
      rw [if_neg hcr, if_neg (by simpa using hc)]
      rw [ih fuel (c :: acc) (by simpa using hf) (fun z hz => hnb z (by simp [hz]))]
      rw [if_neg (by simp), if_neg (by simp)]
      simp

theorem splitlines_oneLine {x : String} (h1 : x ≠ "")
    (h2 : ∀ c ∈ x.data, c ∉ lineBreakChars) :
    pythonSplitlinesKeepends x = [x] := by
  unfold pythonSplitlinesKeepends
  rw [pySplitlines_no_breaks x.data (x.data.length + 1) [] (by omega) h2]
  have hd : x.data ≠ [] := by
    intro hc
    apply h1
    cases x
    simp_all
  rw [if_neg (by simpa using hd)]
  rfl

theorem runLen_single {x y : String} (hxy : x ≠ y) :
    runLen [x] [y] 1 0 0 1 1 = 0 := by
  unfold runLen
  rw [if_neg]
  simp [hxy]

theorem findLongestMatch_single {x y : String} (hxy : x ≠ y) :
    findLongestMatch [x] [y] 0 1 0 1 = (0, 0, 0) := by
  unfold findLongestMatch
  simp [List.range', runLen_single hxy]

theorem matchingBlocksAux_single {x y : String} (hxy : x ≠ y) :
    matchingBlocksAux [x] [y] 3 0 1 0 1 = [] := by
  unfold matchingBlocksAux
  simp [findLongestMatch_single hxy]

theorem getMatchingBlocks_single {x y : String} (hxy : x ≠ y) :
    getMatchingBlocks [x] [y] = [(1, 1, 0)] := by
  unfold getMatchingBlocks
  simp [matchingBlocksAux_single hxy, mergeLoop]

theorem getOpcodes_single {x y : String} (hxy : x ≠ y) :
    getOpcodes [x] [y] = [⟨.replace, 0, 1, 0, 1⟩] := by
  unfold getOpcodes
  rw [getMatchingBlocks_single hxy]
  rfl

theorem groupOpcodes_single {x y : String} (hxy : x ≠ y) :
    groupOpcodes 3 [x] [y] = [[⟨Tag.replace, 0, 1, 0, 1⟩]] := by
  unfold groupOpcodes
  rw [getOpcodes_single hxy]
  rfl

theorem unifiedDiffLines_single {x y : String} (p : String) (hxy : x ≠ y) :
    unifiedDiffLines [x] [y] p p =
      ["--- " ++ p, "+++ " ++ p, "@@ -1 +1 @@", "-" ++ x, "+" ++ y] := by
  unfold unifiedDiffLines
  rw [groupOpcodes_single hxy]
  rfl

theorem generatePatch_single {x y : String} (p : String) (hx1 : x ≠ "")
    (hx2 : ∀ c ∈ x.data, c ∉ lineBreakChars) (hy1 : y ≠ "")
    (hy2 : ∀ c ∈ y.data, c ∉ lineBreakChars) (hxy : x ≠ y) :
    generatePatch x y p =
      String.join ["--- " ++ p, "+++ " ++ p, "@@ -1 +1 @@", "-" ++ x, "+" ++ y] := by
  unfold generatePatch
  rw [splitlines_oneLine hx1 hx2, splitlines_oneLine hy1 hy2,
    unifiedDiffLines_single p hxy]

/-- C7 (amended): for a single-segment repository-relative path whose
live file holds `x` and for which NO backup exists yet in the backup
area, applying `{name: y}` stores a backup containing `x`, writes `y`
to the live file, returns success with a unified diff whose removed
line is `-x` and added line is `+y`, and a subsequent revert of that
path restores `x`.  (The no-prior-backup proviso is forced by the
`datetime.now()` bug: with a pre-existing backup the iteration errors
out instead of creating a timestamped backup — see the
counterexample.) -/
theorem C7_roundtrip_without_prior_backup
    (repo : OsPath) (fs : FS) (name x y : String)
    (h0 : startsWithSlash name = false)
    (h1 : parseRel name = [name])
    (h2 : name ≠ "..")
    (h8 : ∀ seg ∈ repo, seg ≠ "..")
    (h3 : fs.fileContent (repo ++ [name]) = some x)
    (h4 : fs.isDir (repo ++ [name]) = false)
    (h5 : fs.isDir (backupDirOf repo) = true)
    (h6 : fs.pathExists (backupDirOf repo ++ [name]) = false)
    (h7 : ∀ q, q <+: repo → fs.isDir q = true)
    (hx1 : x ≠ "") (hx2 : ∀ c ∈ x.data, c ∉ lineBreakChars)
    (hy1 : y ≠ "") (hy2 : ∀ c ∈ y.data, c ∉ lineBreakChars)
    (hxy : x ≠ y) :
    (applyChanges repo [(name, y)] fs).1 =
      ⟨"success", [name], [],
        [(name, String.join ["--- " ++ name, "+++ " ++ name, "@@ -1 +1 @@",
          "-" ++ x, "+" ++ y])]⟩ ∧
    (applyChanges repo [(name, y)] fs).2.fileContent
      (backupDirOf repo ++ [name]) = some x ∧
    (applyChanges repo [(name, y)] fs).2.fileContent (repo ++ [name]) = some y ∧
    (revertChanges repo [name] (applyChanges repo [(name, y)] fs).2).1 =
      ⟨"success", [name], []⟩ ∧
    (revertChanges repo [name] (applyChanges repo [(name, y)] fs).2).2.fileContent
      (repo ++ [name]) = some x := by
  have hpj : pyJoin repo name = repo ++ [name] := by
    unfold pyJoin
    rw [if_neg (by simp [h0]), h1]
  have hnr : normalizePath repo = repo := normalizePath_no_dots h8
  have hnt : normalizePath (repo ++ [name]) = repo ++ [name] := by
    rw [normalizePath_concat h2, hnr]
  have hdlt : (repo ++ [name]).dropLast = repo := List.dropLast_concat
  have hcb : (".code_backup" : String) ≠ ".." := by decide
  have hnb : normalizePath (backupDirOf repo) = backupDirOf repo := by
    show normalizePath (repo ++ [".code_backup"]) = repo ++ [".code_backup"]
    rw [normalizePath_concat hcb, hnr]
  have hnbp : normalizePath (backupDirOf repo ++ [name])
      = backupDirOf repo ++ [name] := by
    rw [normalizePath_concat h2, hnb]
  have hbdl : (backupDirOf repo ++ [name]).dropLast = backupDirOf repo :=
    List.dropLast_concat
  have hneq : ¬ (repo ++ [name] = backupDirOf repo ++ [name]) := by
    intro hcon
    have hlen := congrArg List.length hcon
    unfold backupDirOf at hlen
    simp at hlen
  have hBneq : ¬ (backupDirOf repo ++ [name] = repo ++ [name]) :=
    fun hc => hneq hc.symm
  obtain ⟨hbf, hbd⟩ := pathExists_false_elim h6
  have hisfT : fs.isFile (repo ++ [name]) = true := by
    unfold FS.isFile
    rw [h3]
    rfl
  have hexT : fs.pathExists (normalizePath (repo ++ [name])) = true := by
    rw [hnt]
    unfold FS.pathExists
    rw [hisfT]
    rfl
  have hrdT : fs.readFile (normalizePath (repo ++ [name])) = .ok x := by
    rw [hnt]
    exact readFile_eq_ok h4 h3
  have hmp1 : fs.mkdirParents (normalizePath (repo ++ [name]).dropLast)
      = (fs, none) := by
    rw [hdlt, hnr]
    exact mkChain_noop _ (fun q hq => h7 q (pathChain_prefixes hq))
  have hmp2 : fs.mkdirParents (normalizePath (backupDirOf repo ++ [name]).dropLast)
      = (fs, none) := by
    rw [hbdl, hnb]
    refine mkChain_noop _ (fun q hq => ?_)
    have hq' : q <+: repo ++ [".code_backup"] := pathChain_prefixes hq
    rcases List.prefix_concat_iff.mp hq' with hqe | hqp
    · rw [hqe]
      exact h5
    · exact h7 q hqp
  have hw2 := @writeFile_ok fs (backupDirOf repo ++ [name]) x hbd
    (Or.inr (by rw [hbdl]; exact h5))
  have hbk : backupFile repo fs (pyJoin repo name) =
      (fs.overwrite (backupDirOf repo ++ [name]) x,
        .ok (some (backupDirOf repo ++ [name]))) := by
    unfold backupFile
    rw [hpj]
    rw [if_neg (by rw [hexT]; decide)]
    rw [relativeTo_append]
    dsimp only
    rw [hmp2]
    dsimp only
    rw [if_neg (by rw [hnbp, h6]; decide)]
    rw [hrdT]
    dsimp only
    rw [hnbp, hw2]
  have hf2T : (fs.overwrite (backupDirOf repo ++ [name]) x).isFile (repo ++ [name])
      = true := isFile_writeFile hw2 _ hisfT
  have hd2T : (fs.overwrite (backupDirOf repo ++ [name]) x).isDir (repo ++ [name])
      = false := by
    rw [isDir_writeFile hw2]
    exact h4
  have hw3 := @writeFile_ok (fs.overwrite (backupDirOf repo ++ [name]) x)
    (repo ++ [name]) y hd2T (Or.inl hf2T)
  have hstep : applyStep repo name y fs =
      ((fs.overwrite (backupDirOf repo ++ [name]) x).overwrite (repo ++ [name]) y,
        some (generatePatch x y name), none) := by
    unfold applyStep
    rw [hpj, hmp1]
    dsimp only
    rw [if_pos hexT, hrdT]
    dsimp only
    rw [hpj] at hbk
    rw [hbk]
    dsimp only
    rw [hnt, hw3]
  have happ : applyChanges repo [(name, y)] fs =
      (⟨"success", [name], [],
        [(name, String.join ["--- " ++ name, "+++ " ++ name, "@@ -1 +1 @@",
          "-" ++ x, "+" ++ y])]⟩,
        (fs.overwrite (backupDirOf repo ++ [name]) x).overwrite (repo ++ [name]) y) := by
    unfold applyChanges applyLoop
    rw [hstep, generatePatch_single name hx1 hx2 hy1 hy2 hxy]
    rfl
  have hc3T : ((fs.overwrite (backupDirOf repo ++ [name]) x).overwrite
      (repo ++ [name]) y).fileContent (repo ++ [name]) = some y := by
    rw [fileContent_writeFile hw3]
    rw [if_pos rfl]
  have hc3B : ((fs.overwrite (backupDirOf repo ++ [name]) x).overwrite
      (repo ++ [name]) y).fileContent (backupDirOf repo ++ [name]) = some x := by
    rw [fileContent_writeFile hw3, if_neg hBneq, fileContent_writeFile hw2,
      if_pos rfl]
  have hd3T : ((fs.overwrite (backupDirOf repo ++ [name]) x).overwrite
      (repo ++ [name]) y).isDir (repo ++ [name]) = false := by
    rw [isDir_writeFile hw3]
    exact hd2T
  have hd3B : ((fs.overwrite (backupDirOf repo ++ [name]) x).overwrite
      (repo ++ [name]) y).isDir (backupDirOf repo ++ [name]) = false := by
    rw [isDir_writeFile hw3, isDir_writeFile hw2]
    exact hbd
  have hisf3T : ((fs.overwrite (backupDirOf repo ++ [name]) x).overwrite
      (repo ++ [name]) y).isFile (repo ++ [name]) = true := by
    unfold FS.isFile
    rw [hc3T]
    rfl
  have hisf3B : ((fs.overwrite (backupDirOf repo ++ [name]) x).overwrite
      (repo ++ [name]) y).isFile (backupDirOf repo ++ [name]) = true := by
    unfold FS.isFile
    rw [hc3B]
    rfl
  have hpjb : pyJoin (backupDirOf repo) name = backupDirOf repo ++ [name] := by
    unfold pyJoin
    rw [if_neg (by simp [h0]), h1]
  have hw4 := @writeFile_ok
    ((fs.overwrite (backupDirOf repo ++ [name]) x).overwrite (repo ++ [name]) y)
    (repo ++ [name]) x hd3T (Or.inl hisf3T)
  have hrs : revertStep repo name
      ((fs.overwrite (backupDirOf repo ++ [name]) x).overwrite (repo ++ [name]) y) =
      ((((fs.overwrite (backupDirOf repo ++ [name]) x).overwrite
          (repo ++ [name]) y).overwrite (repo ++ [name]) x), none) := by
    unfold revertStep
    rw [hpjb, hpj, hnbp, hnt]
    rw [if_neg (by unfold FS.pathExists; rw [hisf3B]; simp)]
    rw [readFile_eq_ok hd3B hc3B]
    dsimp only
    rw [hw4]
  have hrev : revertChanges repo [name]
      ((fs.overwrite (backupDirOf repo ++ [name]) x).overwrite (repo ++ [name]) y) =
      (⟨"success", [name], []⟩,
        (((fs.overwrite (backupDirOf repo ++ [name]) x).overwrite
          (repo ++ [name]) y).overwrite (repo ++ [name]) x)) := by
    unfold revertChanges revertLoop
    rw [hrs]
    rfl
  refine ⟨by rw [happ], by rw [happ]; exact hc3B, by rw [happ]; exact hc3T,
    by rw [happ]; dsimp only; rw [hrev], ?_⟩
  rw [happ]
  dsimp only
  rw [hrev]
  dsimp only
  rw [fileContent_writeFile hw4, if_pos rfl]

theorem C7_roundtrip_without_prior_backup_witness :
    ((⟨[(["r", "a.txt"], "X")], [["r"], ["r", ".code_backup"]]⟩ : FS).fileContent
        (["r"] ++ ["a.txt"]) = some "X") ∧
    (applyChanges ["r"] [("a.txt", "Y")]
        ⟨[(["r", "a.txt"], "X")], [["r"], ["r", ".code_backup"]]⟩).1 =
      ⟨"success", ["a.txt"], [],
        [("a.txt", String.join ["--- " ++ "a.txt", "+++ " ++ "a.txt",
          "@@ -1 +1 @@", "-" ++ "X", "+" ++ "Y"])]⟩ ∧
    (revertChanges ["r"] ["a.txt"]
        (applyChanges ["r"] [("a.txt", "Y")]
          ⟨[(["r", "a.txt"], "X")], [["r"], ["r", ".code_backup"]]⟩).2).2.fileContent
      (["r"] ++ ["a.txt"]) = some "X" :=
  ⟨rfl,
    (C7_roundtrip_without_prior_backup ["r"]
      ⟨[(["r", "a.txt"], "X")], [["r"], ["r", ".code_backup"]]⟩ "a.txt" "X" "Y"
      rfl rfl (by decide) (by decide) rfl rfl rfl rfl
      (by
        intro q hq
        have hsp : q = ["r"] ∨ q <+: ([] : List String) :=
          List.prefix_concat_iff.mp (show q <+: ([] : List String) ++ ["r"] from hq)
        rcases hsp with h | h
        · rw [h]
          rfl
        · rw [List.prefix_nil.mp h]
          rfl)
      (by decide) (by decide) (by decide) (by decide) (by decide)).1,
    (C7_roundtrip_without_prior_backup ["r"]
      ⟨[(["r", "a.txt"], "X")], [["r"], ["r", ".code_backup"]]⟩ "a.txt" "X" "Y"
      rfl rfl (by decide) (by decide) rfl rfl rfl rfl
      (by
        intro q hq
        have hsp : q = ["r"] ∨ q <+: ([] : List String) :=
          List.prefix_concat_iff.mp (show q <+: ([] : List String) ++ ["r"] from hq)
        rcases hsp with h | h
        · rw [h]
          rfl
        · rw [List.prefix_nil.mp h]
          rfl)
      (by decide) (by decide) (by decide) (by decide) (by decide)).2.2.2.2⟩
